import Mathlib

/-!
Shallow embedding of the rendering core of the CPPGraphicsEngine repository
(hierarchical transform cache, vertex codec, draw-command sorting, mesh
buffer cache, software rasterizer), together with theorems settling the
frozen specification claims.

Arithmetic on C `float` values is modelled over `ℚ`; the library calls
`std::sqrt`, `std::sin`, `std::cos` are modelled by computable rational
stand-ins (`ratSqrt`, `ratSin`, `ratCos`).  None of the settled claims
depends on the values these stand-ins produce away from exact points
(0 and perfect squares), where they agree with the C functions exactly.
Casts `(int)f` / `static_cast<int16_t>(f)` truncate toward zero and are
modelled by `ratTrunc`.
-/

namespace GE

/-- Truncation toward zero, the semantics of a C cast from `float` to an
integer type (`(int)x`, `static_cast<int16_t>(x)`). -/
def ratTrunc (q : ℚ) : ℤ :=
  if 0 ≤ q then ⌊q⌋ else -⌊-q⌋

/-- Computable rational model of `std::sqrt` (exact on squares of
rationals with square-numerator/denominator, e.g. on 0 and 1). -/
def ratSqrt (q : ℚ) : ℚ :=
  if 0 ≤ q then ((Nat.sqrt (q.num.toNat * q.den) : ℤ) : ℚ) / (q.den : ℚ) else 0

/-- Computable rational model of `std::sin` (truncated Taylor series;
exact at 0). -/
def ratSin (q : ℚ) : ℚ :=
  q - q ^ 3 / 6 + q ^ 5 / 120

/-- Computable rational model of `std::cos` (truncated Taylor series;
exact at 0). -/
def ratCos (q : ℚ) : ℚ :=
  1 - q ^ 2 / 2 + q ^ 4 / 24

/-- Mirror of `vec3` (src/Engine/Math/vec3.h): three `float` components,
modelled over `ℚ`.  Also used for `color` (src/Engine/Rendering/color.h
defines `using color = vec3`). -/
structure Vec3 where
  x : ℚ
  y : ℚ
  z : ℚ
deriving DecidableEq, Repr

namespace Vec3

/-- Mirror of `vec3::operator+`. -/
def add (a b : Vec3) : Vec3 := ⟨a.x + b.x, a.y + b.y, a.z + b.z⟩

/-- Mirror of `vec3::operator-` (binary). -/
def sub (a b : Vec3) : Vec3 := ⟨a.x - b.x, a.y - b.y, a.z - b.z⟩

/-- Mirror of unary `vec3::operator-`. -/
def neg (a : Vec3) : Vec3 := ⟨-a.x, -a.y, -a.z⟩

/-- Mirror of componentwise `vec3::operator*(const vec3&)`. -/
def hmul (a b : Vec3) : Vec3 := ⟨a.x * b.x, a.y * b.y, a.z * b.z⟩

/-- Mirror of `vec3::operator*(float)` / `operator*(float, vec3)`. -/
def smul (s : ℚ) (a : Vec3) : Vec3 := ⟨a.x * s, a.y * s, a.z * s⟩

instance : Add Vec3 := ⟨add⟩
instance : Sub Vec3 := ⟨sub⟩
instance : Neg Vec3 := ⟨neg⟩

/-- Mirror of `vec3::dot`. -/
def dot (a b : Vec3) : ℚ := a.x * b.x + a.y * b.y + a.z * b.z

/-- Mirror of `vec3::cross`. -/
def cross (a b : Vec3) : Vec3 :=
  ⟨a.y * b.z - a.z * b.y, a.z * b.x - a.x * b.z, a.x * b.y - a.y * b.x⟩

/-- Mirror of `vec3::lengthSquared`. -/
def lengthSquared (a : Vec3) : ℚ := a.x * a.x + a.y * a.y + a.z * a.z

/-- Mirror of `vec3::length` (`std::sqrt` modelled by `ratSqrt`). -/
def length (a : Vec3) : ℚ := ratSqrt (lengthSquared a)

/-- Mirror of `vec3::normalized`: divide by the length if positive,
otherwise return the zero vector. -/
def normalized (a : Vec3) : Vec3 :=
  let len := length a
  if 0 < len then ⟨a.x / len, a.y / len, a.z / len⟩ else ⟨0, 0, 0⟩

/-- Mirror of `vec3::zero`. -/
def zero : Vec3 := ⟨0, 0, 0⟩

/-- Mirror of `vec3::one`. -/
def one : Vec3 := ⟨1, 1, 1⟩

end Vec3

/-- Mirror of `mat4` (src/Engine/Math/mat4.h): a row-major 4×4 `float`
matrix, modelled with sixteen `ℚ` entries. -/
structure Mat4 where
  m00 : ℚ
  m01 : ℚ
  m02 : ℚ
  m03 : ℚ
  m10 : ℚ
  m11 : ℚ
  m12 : ℚ
  m13 : ℚ
  m20 : ℚ
  m21 : ℚ
  m22 : ℚ
  m23 : ℚ
  m30 : ℚ
  m31 : ℚ
  m32 : ℚ
  m33 : ℚ
deriving DecidableEq, Repr

namespace Mat4

/-- Mirror of `mat4::identity` (the default constructor). -/
def identity : Mat4 :=
  ⟨1, 0, 0, 0, 0, 1, 0, 0, 0, 0, 1, 0, 0, 0, 0, 1⟩

/-- Mirror of `mat4::translation`. -/
def translation (pos : Vec3) : Mat4 :=
  { identity with m03 := pos.x, m13 := pos.y, m23 := pos.z }

/-- Mirror of `mat4::scale`. -/
def scale (s : Vec3) : Mat4 :=
  { identity with m00 := s.x, m11 := s.y, m22 := s.z }

/-- Mirror of `mat4::rotationX` (`std::cos`/`std::sin` modelled by
`ratCos`/`ratSin`). -/
def rotationX (angle : ℚ) : Mat4 :=
  let c := ratCos angle
  let s := ratSin angle
  { identity with m11 := c, m12 := -s, m21 := s, m22 := c }

/-- Mirror of `mat4::rotationY`. -/
def rotationY (angle : ℚ) : Mat4 :=
  let c := ratCos angle
  let s := ratSin angle
  { identity with m00 := c, m02 := s, m20 := -s, m22 := c }

/-- Mirror of `mat4::rotationZ`. -/
def rotationZ (angle : ℚ) : Mat4 :=
  let c := ratCos angle
  let s := ratSin angle
  { identity with m00 := c, m01 := -s, m10 := s, m11 := c }

/-- Mirror of `mat4::operator*` (row-major matrix product). -/
def mul (a b : Mat4) : Mat4 :=
  ⟨a.m00 * b.m00 + a.m01 * b.m10 + a.m02 * b.m20 + a.m03 * b.m30,
   a.m00 * b.m01 + a.m01 * b.m11 + a.m02 * b.m21 + a.m03 * b.m31,
   a.m00 * b.m02 + a.m01 * b.m12 + a.m02 * b.m22 + a.m03 * b.m32,
   a.m00 * b.m03 + a.m01 * b.m13 + a.m02 * b.m23 + a.m03 * b.m33,
   a.m10 * b.m00 + a.m11 * b.m10 + a.m12 * b.m20 + a.m13 * b.m30,
   a.m10 * b.m01 + a.m11 * b.m11 + a.m12 * b.m21 + a.m13 * b.m31,
   a.m10 * b.m02 + a.m11 * b.m12 + a.m12 * b.m22 + a.m13 * b.m32,
   a.m10 * b.m03 + a.m11 * b.m13 + a.m12 * b.m23 + a.m13 * b.m33,
   a.m20 * b.m00 + a.m21 * b.m10 + a.m22 * b.m20 + a.m23 * b.m30,
   a.m20 * b.m01 + a.m21 * b.m11 + a.m22 * b.m21 + a.m23 * b.m31,
   a.m20 * b.m02 + a.m21 * b.m12 + a.m22 * b.m22 + a.m23 * b.m32,
   a.m20 * b.m03 + a.m21 * b.m13 + a.m22 * b.m23 + a.m23 * b.m33,
   a.m30 * b.m00 + a.m31 * b.m10 + a.m32 * b.m20 + a.m33 * b.m30,
   a.m30 * b.m01 + a.m31 * b.m11 + a.m32 * b.m21 + a.m33 * b.m31,
   a.m30 * b.m02 + a.m31 * b.m12 + a.m32 * b.m22 + a.m33 * b.m32,
   a.m30 * b.m03 + a.m31 * b.m13 + a.m32 * b.m23 + a.m33 * b.m33⟩

instance : Mul Mat4 := ⟨mul⟩

/-- Mirror of `mat4::euler`: `rotationZ * rotationY * rotationX`. -/
def euler (angles : Vec3) : Mat4 :=
  rotationZ angles.z * rotationY angles.y * rotationX angles.x

end Mat4

/-!
Embedding of `TransformComponent`
(src/Engine/Core/Components/transformComponent.h).

The C++ class stores a parent pointer and a child-pointer list; here a
hierarchy is a rose tree (`TransformTree`), each node carrying the data
members of one `TransformComponent`.  Nodes are addressed by their child
index path from the root.  The lazy getters mutate the cached fields, so
they return the value together with the updated tree.
-/

/-- Data members of one `TransformComponent` (the parent/children links
are represented by the tree shape of `TransformTree`).  The default
constructor makes `isDirty = false`, `worldCacheDirty = true`, identity
local transform; the cached `vec3`/`mat4` members are default-initialized
to zero vectors and the identity matrix. -/
structure TransformComponent where
  isDirty : Bool
  localPosition : Vec3
  localRotation : Vec3
  localScale : Vec3
  cachedWorldPosition : Vec3
  cachedWorldRotation : Vec3
  cachedWorldScale : Vec3
  cachedWorldMatrix : Mat4
  worldCacheDirty : Bool
deriving DecidableEq, Repr

/-- Mirror of `TransformComponent::TransformComponent()`. -/
def TransformComponent.mk0 : TransformComponent :=
  { isDirty := false
    localPosition := Vec3.zero
    localRotation := Vec3.zero
    localScale := Vec3.one
    cachedWorldPosition := Vec3.zero
    cachedWorldRotation := Vec3.zero
    cachedWorldScale := Vec3.zero
    cachedWorldMatrix := Mat4.identity
    worldCacheDirty := true }

/-- A transform hierarchy: one `TransformComponent` per node, children in
list order (the order of the C++ `children` vector). -/
inductive TransformTree where
  | node (fields : TransformComponent) (children : List TransformTree)
deriving Repr

namespace TransformTree

/-- Fields of the root node of a subtree. -/
def fields : TransformTree → TransformComponent
  | .node f _ => f

/-- Children of the root node of a subtree. -/
def children : TransformTree → List TransformTree
  | .node _ cs => cs

mutual

/-- Mirror of `TransformComponent::markDirty`: set `isDirty` and
`worldCacheDirty` on this node, then recurse into each child that is not
already `isDirty` (the short-circuit `if (!child->isDirty)`). -/
def markDirty : TransformTree → TransformTree
  | .node f cs =>
      .node { f with isDirty := true, worldCacheDirty := true } (markDirtyChildren cs)

/-- Child traversal of `markDirty`, skipping children whose `isDirty`
flag is already set. -/
def markDirtyChildren : List TransformTree → List TransformTree
  | [] => []
  | c :: cs =>
      (if c.fields.isDirty then c else markDirty c) :: markDirtyChildren cs

end

mutual

/-- Mirror of `TransformComponent::setLocalPosition` at the node reached
by the given child-index path: assign `localPosition`, then `markDirty()`
(which marks the node and its not-yet-dirty descendants). -/
def setLocalPositionAt : TransformTree → List ℕ → Vec3 → TransformTree
  | .node f cs, [], pos => markDirty (.node { f with localPosition := pos } cs)
  | .node f cs, i :: p, pos => .node f (setLocalPositionAtChildren cs i p pos)

/-- Child traversal of `setLocalPositionAt`. -/
def setLocalPositionAtChildren :
    List TransformTree → ℕ → List ℕ → Vec3 → List TransformTree
  | [], _, _, _ => []
  | c :: cs, 0, p, pos => setLocalPositionAt c p pos :: cs
  | c :: cs, i + 1, p, pos => c :: setLocalPositionAtChildren cs i p pos

end

/-- Mirror of the parentless branch of
`TransformComponent::updateWorldCache`: world = local, and the world
matrix is `translation * euler * scale`. -/
def updateWorldCacheRoot (f : TransformComponent) : TransformComponent :=
  { f with
    cachedWorldPosition := f.localPosition
    cachedWorldRotation := f.localRotation
    cachedWorldScale := f.localScale
    cachedWorldMatrix :=
      Mat4.translation f.localPosition * Mat4.euler f.localRotation *
        Mat4.scale f.localScale
    worldCacheDirty := false }

/-- Mirror of the parented branch of
`TransformComponent::updateWorldCache`, with `p` the parent fields after
the parent getters have refreshed its cache: the world matrix is
`parentWorld * (translation * euler * scale)`, the world position and
rotation compose additively, and the world scale multiplies
componentwise. -/
def updateWorldCacheWithParent (p f : TransformComponent) : TransformComponent :=
  { f with
    cachedWorldMatrix :=
      p.cachedWorldMatrix *
        (Mat4.translation f.localPosition * Mat4.euler f.localRotation *
          Mat4.scale f.localScale)
    cachedWorldPosition := p.cachedWorldPosition + f.localPosition
    cachedWorldRotation := p.cachedWorldRotation + f.localRotation
    cachedWorldScale := Vec3.hmul p.cachedWorldScale f.localScale
    worldCacheDirty := false }

/-- Lazy world-cache refresh along an ancestor chain, mirroring how a
world getter triggers `updateWorldCache`, which (only when the node is
dirty) queries the parent getters, recursively.  `anc` lists the
ancestors of `f` nearest-first (parent, grandparent, …, root).  Returns
the updated ancestors and the updated node. -/
def readChain : List TransformComponent → TransformComponent →
    List TransformComponent × TransformComponent
  | anc, f =>
    if f.worldCacheDirty = false then (anc, f)
    else
      match anc with
      | [] => ([], updateWorldCacheRoot f)
      | p :: rest =>
          let r := readChain rest p
          (r.2 :: r.1, updateWorldCacheWithParent r.2 f)

/-- Collect the fields of the node at `path` together with its ancestor
fields (nearest-first), or `none` when the path leaves the tree. -/
def chainTo : TransformTree → List ℕ → List TransformComponent →
    Option (List TransformComponent × TransformComponent)
  | t, [], anc => some (anc, t.fields)
  | t, i :: p, anc =>
      match t.children.get? i with
      | none => none
      | some c => chainTo c p (t.fields :: anc)

mutual

/-- Write back updated fields along a path: `fs` lists the new fields for
the nodes on the path, root-first, target last. -/
def replaceAlong : TransformTree → List ℕ → List TransformComponent → TransformTree
  | t, _, [] => t
  | .node _ cs, [], g :: _ => .node g cs
  | .node _ cs, i :: p, g :: gs => .node g (replaceAlongChildren cs i p gs)

/-- Child traversal of `replaceAlong`. -/
def replaceAlongChildren :
    List TransformTree → ℕ → List ℕ → List TransformComponent → List TransformTree
  | [], _, _, _ => []
  | c :: cs, 0, p, gs => replaceAlong c p gs :: cs
  | c :: cs, i + 1, p, gs => c :: replaceAlongChildren cs i p gs

end

/-- Run the lazy cache refresh for a world getter called on the node at
`path`: returns the refreshed fields of that node and the tree with all
caches the call touched written back. -/
def refreshAt (t : TransformTree) (path : List ℕ) :
    Option (TransformComponent × TransformTree) :=
  match chainTo t path [] with
  | none => none
  | some (anc, f) =>
      let r := readChain anc f
      some (r.2, replaceAlong t path (r.1.reverse ++ [r.2]))

/-- Mirror of `TransformComponent::getWorldPosition` on the node at
`path` (value returned together with the updated tree). -/
def getWorldPositionAt (t : TransformTree) (path : List ℕ) :
    Option (Vec3 × TransformTree) :=
  (refreshAt t path).map fun r => (r.1.cachedWorldPosition, r.2)

/-- Mirror of `TransformComponent::getWorldRotation` on the node at
`path`. -/
def getWorldRotationAt (t : TransformTree) (path : List ℕ) :
    Option (Vec3 × TransformTree) :=
  (refreshAt t path).map fun r => (r.1.cachedWorldRotation, r.2)

/-- Mirror of `TransformComponent::getWorldScale` on the node at
`path`. -/
def getWorldScaleAt (t : TransformTree) (path : List ℕ) :
    Option (Vec3 × TransformTree) :=
  (refreshAt t path).map fun r => (r.1.cachedWorldScale, r.2)

/-- Mirror of `TransformComponent::getWorldMatrix` on the node at
`path`. -/
def getWorldMatrixAt (t : TransformTree) (path : List ℕ) :
    Option (Mat4 × TransformTree) :=
  (refreshAt t path).map fun r => (r.1.cachedWorldMatrix, r.2)

/-- The `worldCacheDirty` flag of the node at `path`. -/
def worldCacheDirtyAt (t : TransformTree) (path : List ℕ) : Option Bool :=
  (chainTo t path []).map fun r => r.2.worldCacheDirty

/-- Modelled from the spec: eagerly recompose the world position of the
node at `path` from scratch on every call, using the engine's composition
rule for positions (parent world position plus local position, i.e. the
sum of the local positions along the ancestor chain). -/
def eagerWorldPositionAt (t : TransformTree) (path : List ℕ) : Option Vec3 :=
  match t, path with
  | t, [] => some t.fields.localPosition
  | t, i :: p =>
      match t.children.get? i with
      | none => none
      | some c =>
          (eagerWorldPositionAt c p).map fun v => t.fields.localPosition + v

end TransformTree

/-!
Concrete two-node hierarchy used to exercise the transform cache: a root
with one child, both default-constructed, then
`root.setLocalPosition(1,0,0)`; `child.getWorldPosition()`;
`root.setLocalPosition(2,0,0)`; `child.getWorldPosition()`.
-/

/-- Root with a single child, both default-constructed. -/
def seqTree0 : TransformTree := .node .mk0 [.node .mk0 []]

/-- After `root.setLocalPosition(vec3(1,0,0))`. -/
def seqTree1 : TransformTree :=
  TransformTree.setLocalPositionAt seqTree0 [] ⟨1, 0, 0⟩

/-- State after the first `child.getWorldPosition()` read (which fills
the root and child world caches). -/
def seqTree2 : TransformTree :=
  ((TransformTree.getWorldPositionAt seqTree1 [0]).map Prod.snd).getD seqTree0

/-- After `root.setLocalPosition(vec3(2,0,0))` on the read-refreshed
state. -/
def seqTree3 : TransformTree :=
  TransformTree.setLocalPositionAt seqTree2 [] ⟨2, 0, 0⟩

/-!
Embedding of the vertex codec (src/Engine/Rendering/Core/render_types.h):
octahedral normal packing and `float`→half conversion.
-/

/-- Mirror of `packNormal` (render_types.h): octahedral projection of a
normal, lower hemisphere folded by sign reflection, scaled to the signed
16-bit range.  Note the fold assigns `px` first and then computes `py`
from the *overwritten* `px`, exactly as the C++ does. -/
def packNormal (nx ny nz : ℚ) : ℤ × ℤ :=
  let invL1 := 1 / (|nx| + |ny| + |nz|)
  let px := nx * invL1
  let py := ny * invL1
  let folded :=
    if nz < 0 then
      let signX : ℚ := if 0 ≤ px then 1 else -1
      let signY : ℚ := if 0 ≤ py then 1 else -1
      let px2 := (1 - |py|) * signX
      let py2 := (1 - |px2|) * signY
      (px2, py2)
    else (px, py)
  (ratTrunc (folded.1 * 32767), ratTrunc (folded.2 * 32767))

/-- Mirror of `unpackNormal` (render_types.h): decode the two 16-bit
channels, unfold the lower hemisphere (this direction keeps the old `px`
in `oldPx`), then renormalize when the length is positive. -/
def unpackNormal (packed : ℤ × ℤ) : Vec3 :=
  let px : ℚ := (packed.1 : ℚ) / 32767
  let py : ℚ := (packed.2 : ℚ) / 32767
  let nz := 1 - |px| - |py|
  let unfolded :=
    if nz < 0 then
      let signX : ℚ := if 0 ≤ px then 1 else -1
      let signY : ℚ := if 0 ≤ py then 1 else -1
      let oldPx := px
      ((1 - |py|) * signX, (1 - |oldPx|) * signY)
    else (px, py)
  let nx := unfolded.1
  let ny := unfolded.2
  let len := ratSqrt (nx * nx + ny * ny + nz * nz)
  if 0 < len then ⟨nx / len, ny / len, nz / len⟩ else ⟨nx, ny, nz⟩

/-- A finite IEEE-754 single-precision bit pattern: sign bit, 8 exponent
bits, 23 fraction bits.  This models the raw 32-bit representation the
code reinterprets with `*reinterpret_cast<const uint32_t*>(&depth)`. -/
structure Float32 where
  sign : Bool
  ex : ℕ
  frac : ℕ
deriving DecidableEq, Repr

namespace Float32

/-- Well-formed bit pattern: the exponent fits 8 bits and the fraction
fits 23 bits. -/
def WF (f : Float32) : Prop := f.ex < 256 ∧ f.frac < 2 ^ 23

instance (f : Float32) : Decidable f.WF := by
  unfold WF; infer_instance

/-- The raw 32-bit pattern of the float. -/
def toBits (f : Float32) : ℕ :=
  (if f.sign then 2 ^ 31 else 0) + f.ex * 2 ^ 23 + f.frac

/-- Magnitude numerator at scale `2^149`: subnormals (`ex = 0`) represent
`frac / 2^149`, normals represent `2^(ex-1) * (2^23 + frac) / 2^149`. -/
def val149 (f : Float32) : ℕ :=
  if f.ex = 0 then f.frac else 2 ^ (f.ex - 1) * (2 ^ 23 + f.frac)

/-- The real value represented by a finite `Float32`, as a rational. -/
def toVal (f : Float32) : ℚ :=
  (if f.sign then -1 else 1) * (val149 f : ℚ) / 2 ^ 149

/-- The bit pattern of `1.0f` (exponent 127). -/
def one : Float32 := ⟨false, 127, 0⟩

/-- The bit pattern of `0.5f` (exponent 126). -/
def half : Float32 := ⟨false, 126, 0⟩

/-- The bit pattern of `+0.0f`. -/
def zero : Float32 := ⟨false, 0, 0⟩

end Float32

/-- Mirror of `floatToHalf` (render_types.h): truncating `float`→half
conversion on the raw bits (no rounding), with underflow flushed to a
signed zero and overflow to a signed infinity. -/
def floatToHalf (f : Float32) : ℕ :=
  let bits := f.toBits
  let sign := (bits >>> 16) &&& 0x8000
  let exponent : ℤ := (((bits >>> 23) &&& 0xFF : ℕ) : ℤ) - 127 + 15
  let mantissa := bits &&& 0x7FFFFF
  if exponent ≤ 0 then sign
  else if 31 ≤ exponent then sign ||| 0x7C00
  else sign ||| (exponent.toNat <<< 10) ||| (mantissa >>> 13)

/-!
Embedding of the draw-command queue
(src/Engine/Rendering/Core/render_command.h).  A `Material*` is modelled
by `Option MaterialM` (null = default shader) and the `const Mesh*` of a
command by the pointed-to mesh's unique id (`Option ℕ`, null possible);
only `getID()` of either is consulted by this code.
-/

/-- Model of a `Material` as seen by the command queue: `getShader()` may
be null, a present shader has a numeric program id. -/
structure MaterialM where
  shader : Option ℕ
deriving DecidableEq, Repr

/-- Mirror of `RenderCommand::generateSortKey`: material/shader id bits
63-48, mesh id bits 47-32, raw depth bits 31-0, each contribution or-ed
into an initially zero key (and skipped when the material/shader or mesh
is null). -/
def generateSortKey (mesh : Option ℕ) (mat : Option MaterialM) (depth : Float32) : ℕ :=
  let key : ℕ := 0
  let key :=
    match mat with
    | some m =>
        match m.shader with
        | some sid => key ||| ((sid &&& 0xFFFF) <<< 48)
        | none => key
    | none => key
  let key :=
    match mesh with
    | some mid => key ||| ((mid &&& 0xFFFF) <<< 32)
    | none => key
  key ||| depth.toBits

/-- The 16 material bits of a sort key (0 when the material or its shader
is null). -/
def materialBits (mat : Option MaterialM) : ℕ :=
  match mat with
  | some m =>
      match m.shader with
      | some sid => sid &&& 0xFFFF
      | none => 0
  | none => 0

/-- The 16 mesh bits of a sort key (0 when the mesh pointer is null). -/
def meshBits (mesh : Option ℕ) : ℕ :=
  match mesh with
  | some mid => mid &&& 0xFFFF
  | none => 0

/-- Mirror of `RenderCommand`: mesh id, material, model matrix snapshot
and precomputed sort key. -/
structure RenderCommandM where
  mesh : Option ℕ
  material : Option MaterialM
  modelMatrix : Mat4
  sortKey : ℕ
deriving DecidableEq, Repr

/-- Mirror of `DrawCommandQueue`: the command vector plus the
`needsSort` flag. -/
structure DrawCommandQueueM where
  commands : List RenderCommandM
  needsSort : Bool
deriving DecidableEq, Repr

namespace DrawCommandQueueM

/-- Mirror of the `DrawCommandQueue()` constructor. -/
def empty : DrawCommandQueueM := ⟨[], false⟩

/-- Mirror of the convenience `DrawCommandQueue::submit(mesh, mat, model,
depth)`: build the command, compute its sort key, append, set
`needsSort`. -/
def submit (q : DrawCommandQueueM) (mesh : Option ℕ) (mat : Option MaterialM)
    (model : Mat4) (depth : Float32) : DrawCommandQueueM :=
  ⟨q.commands ++ [⟨mesh, mat, model, generateSortKey mesh mat depth⟩], true⟩

/-- Mirror of `DrawCommandQueue::sort`: when `needsSort`, reorder the
commands into ascending `sortKey` order (`std::sort` with comparator
`a.sortKey < b.sortKey`; the result is some key-sorted permutation, which
`List.mergeSort` produces), then clear `needsSort`. -/
def sort (q : DrawCommandQueueM) : DrawCommandQueueM :=
  if q.needsSort then
    ⟨q.commands.mergeSort (fun a b => a.sortKey ≤ b.sortKey), false⟩
  else q

/-- Mirror of `DrawCommandQueue::clear`. -/
def clear (_ : DrawCommandQueueM) : DrawCommandQueueM := ⟨[], false⟩

end DrawCommandQueueM

/-- Arguments of one `submit` call. -/
structure SubmitArgs where
  mesh : Option ℕ
  material : Option MaterialM
  model : Mat4
  depth : Float32
deriving DecidableEq, Repr

/-- A queue of submitted draw commands: every `submit` in order, starting
from the freshly constructed queue. -/
def buildQueue (subs : List SubmitArgs) : DrawCommandQueueM :=
  subs.foldl (fun q s => q.submit s.mesh s.material s.model s.depth)
    DrawCommandQueueM.empty

/-- The command list observed after `sort()` on a queue of submitted
commands. -/
def sortedCommands (subs : List SubmitArgs) : List RenderCommandM :=
  (buildQueue subs).sort.commands

/-- A material reference whose 16 sort-key bits determine it uniquely:
either null, or carrying a shader whose id is a nonzero 16-bit value (GL
program ids are small positive integers). -/
def GoodMat (mat : Option MaterialM) : Prop :=
  match mat with
  | none => True
  | some m =>
      match m.shader with
      | none => False
      | some sid => 0 < sid ∧ sid < 2 ^ 16

instance (mat : Option MaterialM) : Decidable (GoodMat mat) :=
  match mat with
  | none => isTrue trivial
  | some ⟨none⟩ => isFalse (fun h => h)
  | some ⟨some sid⟩ => inferInstanceAs (Decidable (0 < sid ∧ sid < 2 ^ 16))

/-- A mesh reference whose 16 sort-key bits determine it uniquely: null,
or an id that is a nonzero 16-bit value (mesh ids count up from 1). -/
def GoodMesh (mesh : Option ℕ) : Prop :=
  match mesh with
  | none => True
  | some mid => 0 < mid ∧ mid < 2 ^ 16

instance (mesh : Option ℕ) : Decidable (GoodMesh mesh) :=
  match mesh with
  | none => isTrue trivial
  | some mid => inferInstanceAs (Decidable (0 < mid ∧ mid < 2 ^ 16))

/-- Submission whose ids are within the sort key's 16-bit fields and
whose depth is a well-formed float bit pattern. -/
def SubmitArgs.Good (s : SubmitArgs) : Prop :=
  GoodMat s.material ∧ GoodMesh s.mesh ∧ s.depth.WF

instance (s : SubmitArgs) : Decidable s.Good :=
  inferInstanceAs (Decidable (_ ∧ _ ∧ _))

/-- Concrete queue contents: two materials (shader ids 1 and 2) and two
meshes (ids 1 and 2) in interleaved submission order. -/
def subs0 : List SubmitArgs :=
  [⟨some 1, some ⟨some 2⟩, Mat4.identity, Float32.one⟩,
   ⟨some 2, some ⟨some 1⟩, Mat4.identity, Float32.half⟩,
   ⟨some 1, some ⟨some 1⟩, Mat4.identity, Float32.one⟩,
   ⟨some 2, some ⟨some 2⟩, Mat4.identity, Float32.half⟩]

/-- A command as produced by some good submission: good ids and a sort
key of the documented bit layout with 32 depth bits. -/
def GoodCmd (c : RenderCommandM) : Prop :=
  GoodMat c.material ∧ GoodMesh c.mesh ∧
    ∃ db, db < 2 ^ 32 ∧
      c.sortKey = materialBits c.material * 2 ^ 48 + meshBits c.mesh * 2 ^ 32 + db

/-!
Embedding of the scene lights (src/Engine/Rendering/light.h), the lights
uniform buffer (src/Engine/Rendering/Core/uniform_buffer.h) and the
light-upload part of `OpenGLRenderer::beginFrame`
(src/Engine/Rendering/Core/opengl_renderer.h).
-/

/-- Mirror of `Light::Type`. -/
inductive LightType where
  | Directional
  | Point
  | Spot
deriving DecidableEq, Repr

/-- Mirror of `Light`. -/
structure LightM where
  type : LightType
  position : Vec3
  direction : Vec3
  color : Vec3
  intensity : ℚ
  range : ℚ
  spotAngle : ℚ
deriving DecidableEq, Repr

/-- A default light value (used only to type out-of-range list accesses
that the code never performs). -/
def LightM.default : LightM :=
  ⟨LightType.Directional, Vec3.zero, Vec3.zero, Vec3.zero, 0, 0, 0⟩

/-- Mirror of `LightData` (std140 per-light entry of the lights UBO). -/
structure LightDataM where
  position : Vec3
  type : ℤ
  direction : Vec3
  intensity : ℚ
  color : Vec3
deriving DecidableEq, Repr

/-- Mirror of `LightsUBO`: eight light slots plus the active count. -/
structure LightsUBOM where
  lights : Fin 8 → LightDataM
  numLights : ℤ

/-- Mirror of `RenderConfig::MAX_LIGHTS`. -/
def MAX_LIGHTS : ℕ := 8

/-- One iteration of the `beginFrame` light loop: the UBO entry written
for a light (`type` 0 for directional, 1 otherwise). -/
def lightToData (l : LightM) : LightDataM :=
  ⟨l.position, if l.type = LightType.Directional then 0 else 1,
   l.direction, l.intensity, l.color⟩

/-- Mirror of the lights part of `OpenGLRenderer::beginFrame`: set
`numLights = min((int)lights.size(), MAX_LIGHTS)`, then copy lights
`0 … numLights-1` into the UBO slots (the camera-UBO update and the
queue clear do not touch light data and are omitted here). -/
def beginFrameLights (u : LightsUBOM) (lights : List LightM) : LightsUBOM :=
  let n := min lights.length MAX_LIGHTS
  let slots := (List.range n).foldl
    (fun s i => fun j : Fin 8 =>
      if j.val = i then lightToData (lights.getD i LightM.default) else s j)
    u.lights
  ⟨slots, (n : ℤ)⟩

/-!
Embedding of the mesh buffer cache: `Mesh` (dirty flag and identity,
src/Engine/Rendering/Primitives/mesh.h), `MeshBuffer`, `uploadMesh`,
`updateMeshIfDirty` and the cache-lookup block of `OpenGLRenderer::flush`
(src/Engine/Rendering/Core/opengl_renderer.h).  GPU traffic is modelled
as an explicit trace of the state-changing GL calls each operation
issues; `glGen*` handle allocation is modelled by a counter.
-/

/-- Mirror of `BufferUsage` (render_types.h). -/
inductive BufferUsage where
  | Static
  | Dynamic
  | Streaming
deriving DecidableEq, Repr

/-- Mirror of `toGLUsage` (the GL enum values of
`GL_STATIC_DRAW`/`GL_DYNAMIC_DRAW`/`GL_STREAM_DRAW`). -/
def toGLUsage : BufferUsage → ℕ
  | .Static => 0x88E4
  | .Dynamic => 0x88E8
  | .Streaming => 0x88E0

/-- Mirror of `Vertex` (mesh.h): position/normal/color as `float`
vectors; the two used uv components are carried as `float` bit patterns,
since `packVertex` reinterprets their raw bits in `floatToHalf`. -/
structure VertexM where
  position : Vec3
  normal : Vec3
  uv0 : Float32
  uv1 : Float32
  vertexColor : Vec3
deriving DecidableEq, Repr

/-- Mirror of `Triangle` (mesh.h): three vertex indices. -/
structure TriangleM where
  v0 : ℕ
  v1 : ℕ
  v2 : ℕ
deriving DecidableEq, Repr

/-- Mirror of `PackedVertex` (render_types.h). -/
structure PackedVertexM where
  position : Vec3
  normal : ℤ × ℤ
  uv : ℕ × ℕ
  color : ℕ × ℕ × ℕ × ℕ
deriving DecidableEq, Repr

/-- Mirror of `OpenGLRenderer::packVertex`: position verbatim,
octahedral-packed normal, truncating half-float uv, clamped 8-bit color
with opaque alpha. -/
def packVertex (v : VertexM) : PackedVertexM :=
  { position := v.position
    normal := packNormal v.normal.x v.normal.y v.normal.z
    uv := (floatToHalf v.uv0, floatToHalf v.uv1)
    color := ((ratTrunc (min (max (v.vertexColor.x * 255) 0) 255)).toNat,
              (ratTrunc (min (max (v.vertexColor.y * 255) 0) 255)).toNat,
              (ratTrunc (min (max (v.vertexColor.z * 255) 0) 255)).toNat,
              255) }

/-- Mirror of the dirty-flag/identity part of `Mesh`. -/
structure MeshM where
  meshID : ℕ
  isDirty : Bool
  usage : BufferUsage
  vertices : List VertexM
  triangles : List TriangleM
deriving DecidableEq, Repr

/-- Mirror of `Mesh::clearDirty`. -/
def MeshM.clearDirty (m : MeshM) : MeshM := { m with isDirty := false }

/-- The packed vertex payload `uploadMesh`/`updateMeshIfDirty` build. -/
def meshPackedVertices (m : MeshM) : List PackedVertexM :=
  m.vertices.map packVertex

/-- The flat index payload (v0, v1, v2 per triangle, in order). -/
def meshIndexData (m : MeshM) : List ℕ :=
  m.triangles.flatMap (fun t => [t.v0, t.v1, t.v2])

/-- Buffer binding targets of the calls the mesh path issues. -/
inductive BufTarget where
  | ArrayBuffer
  | ElementArrayBuffer
deriving DecidableEq, Repr

/-- State-changing GL calls issued by the mesh buffer path. -/
inductive GLCall where
  | genVertexArrays (handle : ℕ)
  | genBuffers (handle : ℕ)
  | bindVertexArray (vao : ℕ)
  | bindBuffer (target : BufTarget) (buf : ℕ)
  | bufferDataVertices (target : BufTarget) (data : List PackedVertexM) (usage : ℕ)
  | bufferDataIndices (target : BufTarget) (data : List ℕ) (usage : ℕ)
  | vertexAttribPointer (loc : ℕ)
  | enableVertexAttribArray (loc : ℕ)
deriving DecidableEq, Repr

/-- Whether a call creates a new GL object (`glGen*`). -/
def GLCall.isGen : GLCall → Bool
  | .genVertexArrays _ => true
  | .genBuffers _ => true
  | _ => false

/-- Mirror of `MeshBuffer`. -/
structure MeshBufferM where
  VAO : ℕ
  VBO : ℕ
  EBO : ℕ
  indexCount : ℕ
  meshID : ℕ
  usage : BufferUsage
deriving DecidableEq, Repr

/-- The mesh-buffer cache part of the renderer state: the
`meshBuffers` map (assoc list keyed by mesh id) plus the handle
allocator modelling `glGen*`. -/
structure RendererState where
  meshBuffers : List (ℕ × MeshBufferM)
  nextHandle : ℕ
deriving DecidableEq, Repr

/-- Lookup in the `meshBuffers` map. -/
def lookupBuffer (bs : List (ℕ × MeshBufferM)) (id : ℕ) : Option MeshBufferM :=
  List.lookup id bs

/-- Insert/replace in the `meshBuffers` map. -/
def insertBuffer (bs : List (ℕ × MeshBufferM)) (id : ℕ) (b : MeshBufferM) :
    List (ℕ × MeshBufferM) :=
  match bs with
  | [] => [(id, b)]
  | (k, v) :: rest =>
      if k = id then (id, b) :: rest else (k, v) :: insertBuffer rest id b

/-- Mirror of `OpenGLRenderer::uploadMesh`: pack the data, create VAO,
VBO, EBO (three fresh handles), upload both payloads, configure the four
vertex attributes, unbind.  Returns the filled `MeshBuffer`, the state
with the advanced handle allocator, and the GL-call trace. -/
def uploadMesh (m : MeshM) (st : RendererState) :
    MeshBufferM × RendererState × List GLCall :=
  let pv := meshPackedVertices m
  let idx := meshIndexData m
  let vao := st.nextHandle + 1
  let vbo := st.nextHandle + 2
  let ebo := st.nextHandle + 3
  let buffer : MeshBufferM :=
    { VAO := vao, VBO := vbo, EBO := ebo, indexCount := idx.length,
      meshID := m.meshID, usage := m.usage }
  (buffer, { st with nextHandle := st.nextHandle + 3 },
   [.genVertexArrays vao, .bindVertexArray vao,
    .genBuffers vbo, .bindBuffer .ArrayBuffer vbo,
    .bufferDataVertices .ArrayBuffer pv (toGLUsage buffer.usage),
    .genBuffers ebo, .bindBuffer .ElementArrayBuffer ebo,
    .bufferDataIndices .ElementArrayBuffer idx (toGLUsage buffer.usage),
    .vertexAttribPointer 0, .enableVertexAttribArray 0,
    .vertexAttribPointer 1, .enableVertexAttribArray 1,
    .vertexAttribPointer 2, .enableVertexAttribArray 2,
    .vertexAttribPointer 3, .enableVertexAttribArray 3,
    .bindVertexArray 0])

/-- Mirror of `OpenGLRenderer::updateMeshIfDirty`: nothing when the mesh
is clean; otherwise re-upload both payloads into the existing VBO/EBO
(no `glGen*`), update `indexCount`, unbind. -/
def updateMeshIfDirty (m : MeshM) (buffer : MeshBufferM) :
    MeshBufferM × List GLCall :=
  if m.isDirty = false then (buffer, [])
  else
    let pv := meshPackedVertices m
    let idx := meshIndexData m
    ({ buffer with indexCount := idx.length },
     [.bindBuffer .ArrayBuffer buffer.VBO,
      .bufferDataVertices .ArrayBuffer pv (toGLUsage buffer.usage),
      .bindBuffer .ElementArrayBuffer buffer.EBO,
      .bufferDataIndices .ElementArrayBuffer idx (toGLUsage buffer.usage),
      .bindBuffer .ArrayBuffer 0,
      .bindBuffer .ElementArrayBuffer 0])

/-- Result of resolving a mesh's GPU buffer inside `flush`. -/
structure ResolveResult where
  buffer : MeshBufferM
  state : RendererState
  mesh : MeshM
  calls : List GLCall
deriving DecidableEq, Repr

/-- Mirror of the mesh-buffer block of `OpenGLRenderer::flush`: look the
mesh id up in the cache; on miss, `uploadMesh`, insert, clear the dirty
flag; on hit with the dirty flag set, `updateMeshIfDirty` into the
existing buffer and clear the flag; on hit with the flag clear, return
the cached buffer unchanged. -/
def resolveMeshBuffer (st : RendererState) (m : MeshM) : ResolveResult :=
  match lookupBuffer st.meshBuffers m.meshID with
  | none =>
      let r := uploadMesh m st
      ⟨r.1, { r.2.1 with meshBuffers := insertBuffer r.2.1.meshBuffers m.meshID r.1 },
       m.clearDirty, r.2.2⟩
  | some buf =>
      if m.isDirty then
        let r := updateMeshIfDirty m buf
        ⟨r.1, { st with meshBuffers := insertBuffer st.meshBuffers m.meshID r.1 },
         m.clearDirty, r.2⟩
      else ⟨buf, st, m, []⟩

/-- Concrete cached buffer for the C5 witness: handles 1/2/3 for mesh
id 1. -/
def meshBufM0 : MeshBufferM := ⟨1, 2, 3, 3, 1, .Static⟩

/-- Concrete renderer state with mesh id 1 cached. -/
def rstate0 : RendererState := ⟨[(1, meshBufM0)], 3⟩

/-- Concrete dirty mesh with id 1 (no vertices, one triangle). -/
def mesh0 : MeshM := ⟨1, true, .Static, [], [⟨0, 0, 0⟩]⟩

/-!
Embedding of the software rasterizer's solid path:
`Framebuffer` (src/Engine/Rendering/Core/framebuffer.h) and
`Rasterizer::barycentric` / `drawFilledTriangle` / `calculateLighting`
(src/Engine/Rendering/Core/rasterizer.h).  The flat `vector` buffers
indexed by `y * width + x` are modelled as functions of the pixel
coordinates; per-pixel iteration runs over the same clamped bounding box
in the same order.
-/

/-- Mirror of `Framebuffer`: dimensions plus color and depth buffers. -/
structure FramebufferM where
  width : ℤ
  height : ℤ
  colorBuffer : ℤ → ℤ → Vec3
  depthBuffer : ℤ → ℤ → ℚ

/-- Mirror of the `Framebuffer(w, h)` constructor: black color buffer,
depth cleared to the far plane 1. -/
def mkFramebuffer (w h : ℤ) : FramebufferM :=
  ⟨w, h, fun _ _ => ⟨0, 0, 0⟩, fun _ _ => 1⟩

namespace FramebufferM

/-- Mirror of `Framebuffer::getPixel` (bounds-checked). -/
def getPixel (fb : FramebufferM) (x y : ℤ) : Vec3 :=
  if 0 ≤ x ∧ x < fb.width ∧ 0 ≤ y ∧ y < fb.height then fb.colorBuffer x y
  else ⟨0, 0, 0⟩

/-- Mirror of `Framebuffer::getDepth` (bounds-checked, far plane when out
of bounds). -/
def getDepth (fb : FramebufferM) (x y : ℤ) : ℚ :=
  if 0 ≤ x ∧ x < fb.width ∧ 0 ≤ y ∧ y < fb.height then fb.depthBuffer x y
  else 1

/-- Mirror of `Framebuffer::setPixelWithDepth`: inside bounds and only
when the new depth is strictly nearer, write depth and color together. -/
def setPixelWithDepth (fb : FramebufferM) (x y : ℤ) (depth : ℚ) (col : Vec3) :
    FramebufferM :=
  if 0 ≤ x ∧ x < fb.width ∧ 0 ≤ y ∧ y < fb.height then
    if depth < fb.depthBuffer x y then
      { fb with
        depthBuffer := fun a b => if a = x ∧ b = y then depth else fb.depthBuffer a b
        colorBuffer := fun a b => if a = x ∧ b = y then col else fb.colorBuffer a b }
    else fb
  else fb

end FramebufferM

/-- Mirror of `Rasterizer::calculateLighting`: unshaded color when no
lights; otherwise ambient plus per-light Lambert diffuse and Blinn-Phong
specular (point lights attenuated, spot lights contribute with the
default-constructed zero light direction), clamped to [0,1]. -/
def calculateLighting (worldPos normal baseColor cameraPos : Vec3)
    (lights : List LightM) : Vec3 :=
  if lights.isEmpty then baseColor
  else
    let ambient : Vec3 := ⟨1/10, 1/10, 1/10⟩
    let viewDir := Vec3.sub cameraPos (Vec3.normalized worldPos)
    let acc := lights.foldl
      (fun (acc : Vec3 × Vec3) light =>
        let dirAtt : Vec3 × ℚ :=
          if light.type = LightType.Directional then
            (Vec3.neg (Vec3.normalized light.direction), 1)
          else if light.type = LightType.Point then
            let toLight := Vec3.sub light.position worldPos
            let distance := Vec3.length toLight
            (Vec3.normalized toLight,
             1 / (1 + 9/100 * distance + 4/125 * distance * distance))
          else (Vec3.zero, 1)
        let lightDir := dirAtt.1
        let attenuation := dirAtt.2
        let diff := max (Vec3.dot normal lightDir) 0
        let halfDir := Vec3.add lightDir (Vec3.normalized viewDir)
        let spec := (max (Vec3.dot normal halfDir) 0) ^ (32 : ℕ)
        (Vec3.add acc.1
           (Vec3.smul attenuation (Vec3.smul diff (Vec3.smul light.intensity light.color))),
         Vec3.add acc.2
           (Vec3.smul (1/2) (Vec3.smul attenuation
             (Vec3.smul spec (Vec3.smul light.intensity light.color))))))
      (⟨0, 0, 0⟩, ⟨0, 0, 0⟩)
    let result := Vec3.add (Vec3.hmul baseColor (Vec3.add ambient acc.1)) acc.2
    ⟨min 1 (max 0 result.x), min 1 (max 0 result.y), min 1 (max 0 result.z)⟩

/-- Mirror of `Rasterizer::barycentric`, including the near-degenerate
guard `|u.z| < 1` that yields `(-1, 1, 1)` (always rejected). -/
def barycentric (p a b c : Vec3) : Vec3 :=
  let v0 : Vec3 := ⟨c.x - a.x, b.x - a.x, a.x - p.x⟩
  let v1 : Vec3 := ⟨c.y - a.y, b.y - a.y, a.y - p.y⟩
  let u := Vec3.cross v0 v1
  if |u.z| < 1 then ⟨-1, 1, 1⟩
  else ⟨1 - (u.x + u.y) / u.z, u.y / u.z, u.x / u.z⟩

/-- The per-triangle arguments of `drawFilledTriangle`: screen positions,
world normals, world positions and vertex colors of the three
vertices. -/
structure TriangleAttrs where
  v0 : Vec3
  v1 : Vec3
  v2 : Vec3
  n0 : Vec3
  n1 : Vec3
  n2 : Vec3
  w0 : Vec3
  w1 : Vec3
  w2 : Vec3
  c0 : Vec3
  c1 : Vec3
  c2 : Vec3

/-- Barycentric coordinates of pixel center `(x+0.5, y+0.5)` with respect
to the triangle's screen vertices. -/
def baryAt (t : TriangleAttrs) (x y : ℤ) : Vec3 :=
  barycentric ⟨(x : ℚ) + 1/2, (y : ℚ) + 1/2, 0⟩ t.v0 t.v1 t.v2

/-- The interpolated depth `bc.x * v0.z + bc.y * v1.z + bc.z * v2.z` at a
pixel. -/
def depthAt (t : TriangleAttrs) (x y : ℤ) : ℚ :=
  let bc := baryAt t x y
  bc.x * t.v0.z + bc.y * t.v1.z + bc.z * t.v2.z

/-- The shaded color the loop body writes at a pixel: attributes
interpolated by the barycentric weights (only `n2` normalized, exactly as
the code does), then `calculateLighting`. -/
def shadeAt (t : TriangleAttrs) (cameraPos : Vec3) (lights : List LightM)
    (x y : ℤ) : Vec3 :=
  let bc := baryAt t x y
  let normal := Vec3.add (Vec3.add (Vec3.smul bc.x t.n0) (Vec3.smul bc.y t.n1))
    (Vec3.smul bc.z (Vec3.normalized t.n2))
  let worldPos := Vec3.add (Vec3.add (Vec3.smul bc.x t.w0) (Vec3.smul bc.y t.w1))
    (Vec3.smul bc.z t.w2)
  let baseColor := Vec3.add (Vec3.add (Vec3.smul bc.x t.c0) (Vec3.smul bc.y t.c1))
    (Vec3.smul bc.z t.c2)
  calculateLighting worldPos normal baseColor cameraPos lights

/-- The pixel decision of the loop body of `drawFilledTriangle`, as a
function of the stored depth: skip when a barycentric coordinate is
negative (`bc.x < 0 || bc.y < 0 || bc.z < 0`), skip when the interpolated
depth fails the strict depth test (`depth >= stored`), otherwise write
the interpolated depth and shaded color. -/
def pixelResult (t : TriangleAttrs) (cameraPos : Vec3) (lights : List LightM)
    (x y : ℤ) (stored : ℚ) : Option (ℚ × Vec3) :=
  let bc := baryAt t x y
  if bc.x < 0 ∨ bc.y < 0 ∨ bc.z < 0 then none
  else if stored ≤ depthAt t x y then none
  else some (depthAt t x y, shadeAt t cameraPos lights x y)

/-- The loop body of `drawFilledTriangle` at one pixel: evaluate the
pixel decision against `fb.getDepth` and write through
`setPixelWithDepth` on pass. -/
def rasterBody (t : TriangleAttrs) (cameraPos : Vec3) (lights : List LightM)
    (fb : FramebufferM) (xy : ℤ × ℤ) : FramebufferM :=
  match pixelResult t cameraPos lights xy.1 xy.2 (fb.getDepth xy.1 xy.2) with
  | none => fb
  | some r => fb.setPixelWithDepth xy.1 xy.2 r.1 r.2

/-- The inclusive integer range `lo … hi` (empty when `hi < lo`). -/
def intRange (lo hi : ℤ) : List ℤ :=
  (List.range (hi + 1 - lo).toNat).map (fun n : ℕ => lo + (n : ℤ))

/-- The pixels of the clamped bounding box, in the loop order of the code
(rows outward, columns inward). -/
def pixelList (minX maxX minY maxY : ℤ) : List (ℤ × ℤ) :=
  (intRange minY maxY).flatMap (fun y => (intRange minX maxX).map (fun x => (x, y)))

/-- `int minX = std::max(0, (int)std::min({v0.x, v1.x, v2.x}))`. -/
def bboxMinX (t : TriangleAttrs) : ℤ :=
  max 0 (ratTrunc (min (min t.v0.x t.v1.x) t.v2.x))

/-- `int maxX = std::min(fb.width - 1, (int)std::max({v0.x, v1.x, v2.x}))`. -/
def bboxMaxX (fb : FramebufferM) (t : TriangleAttrs) : ℤ :=
  min (fb.width - 1) (ratTrunc (max (max t.v0.x t.v1.x) t.v2.x))

/-- `int minY = std::max(0, (int)std::min({v0.y, v1.y, v2.y}))`. -/
def bboxMinY (t : TriangleAttrs) : ℤ :=
  max 0 (ratTrunc (min (min t.v0.y t.v1.y) t.v2.y))

/-- `int maxY = std::min(fb.height - 1, (int)std::max({v0.y, v1.y, v2.y}))`. -/
def bboxMaxY (fb : FramebufferM) (t : TriangleAttrs) : ℤ :=
  min (fb.height - 1) (ratTrunc (max (max t.v0.y t.v1.y) t.v2.y))

/-- Mirror of `Rasterizer::drawFilledTriangle`: clamped integer bounding
box of the screen triangle (`(int)` casts truncating toward zero), then
the per-pixel loop. -/
def drawFilledTriangle (fb : FramebufferM) (t : TriangleAttrs)
    (cameraPos : Vec3) (lights : List LightM) : FramebufferM :=
  (pixelList (bboxMinX t) (bboxMaxX fb t) (bboxMinY t) (bboxMaxY fb t)).foldl
    (rasterBody t cameraPos lights) fb

/-- A degenerate screen triangle with collinear vertices (zero area). -/
def triDeg : TriangleAttrs :=
  ⟨⟨0, 0, 0⟩, ⟨1, 1, 0⟩, ⟨2, 2, 0⟩, Vec3.zero, Vec3.zero, Vec3.zero,
   Vec3.zero, Vec3.zero, Vec3.zero, ⟨1, 1, 1⟩, ⟨1, 1, 1⟩, ⟨1, 1, 1⟩⟩

/-- A triangle covering pixel `(0,0)` at depth 1/2 with distinct vertex
colors (red/green/blue). -/
def triW : TriangleAttrs :=
  ⟨⟨0, 0, 1/2⟩, ⟨2, 0, 1/2⟩, ⟨0, 2, 1/2⟩, Vec3.zero, Vec3.zero, Vec3.zero,
   Vec3.zero, Vec3.zero, Vec3.zero, ⟨1, 0, 0⟩, ⟨0, 1, 0⟩, ⟨0, 0, 1⟩⟩

/-- A triangle covering pixel `(0,0)` at constant depth `z` with constant
vertex color `c`. -/
def triZ (z : ℚ) (c : Vec3) : TriangleAttrs :=
  ⟨⟨0, 0, z⟩, ⟨2, 0, z⟩, ⟨0, 2, z⟩, Vec3.zero, Vec3.zero, Vec3.zero,
   Vec3.zero, Vec3.zero, Vec3.zero, c, c, c⟩

/-- Red occluder at depth 0. -/
def triT0 : TriangleAttrs := triZ 0 ⟨1, 0, 0⟩

/-- White triangle at depth 1/2 (the nearer of the two test
triangles). -/
def triT1 : TriangleAttrs := triZ (1/2) ⟨1, 1, 1⟩

/-- Blue triangle at depth 3/4 (the farther of the two test
triangles). -/
def triT2 : TriangleAttrs := triZ (3/4) ⟨0, 0, 1⟩

end GE

namespace GE

open TransformTree

/-- Unfolding lemma for `Vec3` addition. -/
theorem Vec3.add_def (a b : Vec3) :
    a + b = ⟨a.x + b.x, a.y + b.y, a.z + b.z⟩ := rfl

/-- Claim C1 (code bug): after the mutation sequence
`root.setLocalPosition(1,0,0); child.getWorldPosition();
root.setLocalPosition(2,0,0)`, the child's `getWorldPosition()` returns
the stale cached value `(1,0,0)`, while eagerly recomposing the ancestor
chain from scratch gives `(2,0,0)`: the dirty-flag cache is not
observably transparent.  (`markDirty` short-circuits on the sticky
`isDirty` flag, which `updateWorldCache` never clears, so the second
mutation never re-marks the child's world cache stale.) -/
theorem transform_cache_transparency_bug :
    (getWorldPositionAt seqTree3 [0]).map Prod.fst = some ⟨1, 0, 0⟩ ∧
    eagerWorldPositionAt seqTree3 [0] = some ⟨2, 0, 0⟩ ∧
    (getWorldPositionAt seqTree3 [0]).map Prod.fst ≠
      (eagerWorldPositionAt seqTree3 [0]).map id := by
  refine ⟨?_, ?_, ?_⟩ <;>
    simp [seqTree3, seqTree2, seqTree1, seqTree0, setLocalPositionAt,
      setLocalPositionAtChildren, markDirty, markDirtyChildren,
      getWorldPositionAt, eagerWorldPositionAt, refreshAt, chainTo, readChain,
      replaceAlong, replaceAlongChildren, fields, children,
      TransformComponent.mk0, updateWorldCacheRoot, updateWorldCacheWithParent,
      Vec3.zero, Vec3.one, Vec3.add_def]

/-- Claim C2 (code bug): in state `seqTree2` the child's world cache is
clean (`worldCacheDirty = false`, i.e. it is *not* "already dirty"), yet
`root.setLocalPosition(2,0,0)` fails to mark it stale: propagation
short-circuits at the child because its sticky `isDirty` flag (never
cleared by `updateWorldCache`) is still set.  This violates the claim
that setting a local field marks every descendant world-cache-stale,
stopping early only at descendants already stale in that same sense. -/
theorem transform_markDirty_propagation_bug :
    worldCacheDirtyAt seqTree2 [0] = some false ∧
    worldCacheDirtyAt seqTree3 [] = some true ∧
    worldCacheDirtyAt seqTree3 [0] = some false := by
  refine ⟨?_, ?_, ?_⟩ <;>
    simp [seqTree3, seqTree2, seqTree1, seqTree0, setLocalPositionAt,
      setLocalPositionAtChildren, markDirty, markDirtyChildren,
      getWorldPositionAt, worldCacheDirtyAt, refreshAt, chainTo, readChain,
      replaceAlong, replaceAlongChildren, fields, children,
      TransformComponent.mk0, updateWorldCacheRoot, updateWorldCacheWithParent,
      Vec3.zero, Vec3.one, Vec3.add_def]

/-- Claim C3 (code bug): the octahedral roundtrip of the unit lower
hemisphere normal `(0,0,-1)` (every coordinate exactly representable in
`float`, so the rational model computes bit-for-bit what the C++ does)
returns `(1,0,0)`, which is orthogonal to the input: the angular
deviation is `π/2`, far beyond the 16-bit quantization step (under 0.01
radians).  The fold in `packNormal` computes `py` from the already
overwritten `px`, unlike `unpackNormal`, which keeps `oldPx`. -/
theorem packNormal_roundtrip_bug :
    packNormal 0 0 (-1) = (32767, 0) ∧
    unpackNormal (packNormal 0 0 (-1)) = ⟨1, 0, 0⟩ ∧
    Vec3.dot (unpackNormal (packNormal 0 0 (-1))) ⟨0, 0, -1⟩ = 0 ∧
    Vec3.lengthSquared ⟨0, 0, -1⟩ = 1 := by
  have hpack : packNormal 0 0 (-1) = (32767, 0) := by
    norm_num [packNormal, ratTrunc]
  have hunpack : unpackNormal (packNormal 0 0 (-1)) = ⟨1, 0, 0⟩ := by
    rw [hpack]
    norm_num [unpackNormal, ratSqrt]
  refine ⟨hpack, hunpack, ?_, ?_⟩
  · rw [hunpack]
    norm_num [Vec3.dot]
  · norm_num [Vec3.lengthSquared]

/-- High/low bit-field composition: or-ing a value below `2^i` into a
multiple of `2^i` is addition. -/
theorem lor_eq_add_high {a b i : ℕ} (h : b < 2 ^ i) :
    (2 ^ i * a) ||| b = 2 ^ i * a + b := by
  apply Nat.eq_of_testBit_eq
  intro j
  have h0 : (0 : ℕ) < 2 ^ i := by positivity
  have hL : (2 ^ i * a).testBit j = if j < i then false else a.testBit (j - i) := by
    conv_lhs => rw [show 2 ^ i * a = 2 ^ i * a + 0 from (Nat.add_zero _).symm]
    rw [Nat.testBit_mul_pow_two_add a h0 j]
    by_cases hj : j < i <;> simp [hj]
  have hR : (2 ^ i * a + b).testBit j = if j < i then b.testBit j else a.testBit (j - i) :=
    Nat.testBit_mul_pow_two_add a h j
  rw [Nat.testBit_lor, hL, hR]
  by_cases hj : j < i
  · simp [hj]
  · have hb : b.testBit j = false :=
      Nat.testBit_lt_two_pow
        (lt_of_lt_of_le h (Nat.pow_le_pow_right (by norm_num) (by omega)))
    simp [hj, hb]

/-- Well-formed float bit patterns fit in 32 bits. -/
theorem Float32.toBits_lt_of_wf {f : Float32} (h : f.WF) : f.toBits < 2 ^ 32 := by
  obtain ⟨h1, h2⟩ := h
  cases hs : f.sign <;> simp only [Float32.toBits, hs, if_true, if_false] <;>
    norm_num at h2 ⊢ <;> omega

/-- Masking with `0xFFFF` keeps a value already below `2^16`. -/
theorem and_ffff_of_lt {x : ℕ} (h : x < 2 ^ 16) : x &&& 0xFFFF = x := by
  have e := Nat.and_pow_two_sub_one_of_lt_two_pow (n := 16) h
  norm_num at e ⊢
  exact e

/-- The material bits of any command fit in 16 bits. -/
theorem materialBits_lt (mat : Option MaterialM) : materialBits mat < 2 ^ 16 := by
  rcases mat with _ | ⟨s⟩
  · simp [materialBits]
  · rcases s with _ | sid <;> simp [materialBits]
    have := Nat.and_le_right (n := sid) (m := 0xFFFF)
    norm_num at this ⊢
    omega

/-- The mesh bits of any command fit in 16 bits. -/
theorem meshBits_lt (mesh : Option ℕ) : meshBits mesh < 2 ^ 16 := by
  rcases mesh with _ | mid
  · simp [meshBits]
  · simp [meshBits]
    have := Nat.and_le_right (n := mid) (m := 0xFFFF)
    norm_num at this ⊢
    omega

/-- Layout of the generated sort key: material bits 63-48, mesh bits
47-32, raw depth bits 31-0, as plain arithmetic. -/
theorem generateSortKey_eq (mesh : Option ℕ) (mat : Option MaterialM) (d : Float32)
    (hd : d.WF) :
    generateSortKey mesh mat d =
      materialBits mat * 2 ^ 48 + meshBits mesh * 2 ^ 32 + d.toBits := by
  have hdb := Float32.toBits_lt_of_wf hd
  have hmesh := meshBits_lt mesh
  have hmat := materialBits_lt mat
  have key_eq : generateSortKey mesh mat d =
      ((materialBits mat <<< 48) ||| (meshBits mesh <<< 32)) ||| d.toBits := by
    rcases mat with _ | ⟨s⟩
    · rcases mesh with _ | mid <;> simp [generateSortKey, materialBits, meshBits]
    · rcases s with _ | sid <;> rcases mesh with _ | mid <;>
        simp [generateSortKey, materialBits, meshBits]
  rw [key_eq, Nat.lor_assoc, Nat.shiftLeft_eq, Nat.shiftLeft_eq,
    mul_comm (meshBits mesh) (2 ^ 32), lor_eq_add_high hdb,
    mul_comm (materialBits mat) (2 ^ 48),
    lor_eq_add_high (show 2 ^ 32 * meshBits mesh + d.toBits < 2 ^ 48 by
      norm_num at hmesh hdb ⊢; omega)]
  ring

/-- Good material references are determined by their 16 sort-key bits. -/
theorem materialBits_inj {m1 m2 : Option MaterialM} (h1 : GoodMat m1) (h2 : GoodMat m2)
    (h : materialBits m1 = materialBits m2) : m1 = m2 := by
  rcases m1 with _ | ⟨s1⟩ <;> rcases m2 with _ | ⟨s2⟩
  · rfl
  · rcases s2 with _ | sid2
    · exact absurd h2 id
    · obtain ⟨hp2, hl2⟩ := h2
      simp only [materialBits, and_ffff_of_lt hl2] at h
      omega
  · rcases s1 with _ | sid1
    · exact absurd h1 id
    · obtain ⟨hp1, hl1⟩ := h1
      simp only [materialBits, and_ffff_of_lt hl1] at h
      omega
  · rcases s1 with _ | sid1
    · exact absurd h1 id
    · rcases s2 with _ | sid2
      · exact absurd h2 id
      · obtain ⟨hp1, hl1⟩ := h1
        obtain ⟨hp2, hl2⟩ := h2
        simp only [materialBits, and_ffff_of_lt hl1, and_ffff_of_lt hl2] at h
        rw [h]

/-- Good mesh references are determined by their 16 sort-key bits. -/
theorem meshBits_inj {m1 m2 : Option ℕ} (h1 : GoodMesh m1) (h2 : GoodMesh m2)
    (h : meshBits m1 = meshBits m2) : m1 = m2 := by
  rcases m1 with _ | mid1 <;> rcases m2 with _ | mid2
  · rfl
  · obtain ⟨hp2, hl2⟩ := h2
    rw [meshBits, meshBits, and_ffff_of_lt hl2] at h
    omega
  · obtain ⟨hp1, hl1⟩ := h1
    rw [meshBits, meshBits, and_ffff_of_lt hl1] at h
    omega
  · obtain ⟨hp1, hl1⟩ := h1
    obtain ⟨hp2, hl2⟩ := h2
    rw [meshBits, meshBits, and_ffff_of_lt hl1, and_ffff_of_lt hl2] at h
    rw [h]

/-- A fold of submits over a queue that already needs sorting still needs
sorting (`submit` always sets `needsSort`). -/
theorem submit_foldl_needsSort (l : List SubmitArgs) (q : DrawCommandQueueM)
    (h : q.needsSort = true) :
    (l.foldl (fun q s => q.submit s.mesh s.material s.model s.depth) q).needsSort
      = true := by
  induction l generalizing q with
  | nil => exact h
  | cons s rest ih => exact ih _ rfl

/-- After `sort()`, the command list of a queue of submissions is the
key-sorted permutation of the submitted commands. -/
theorem sortedCommands_eq (subs : List SubmitArgs) :
    sortedCommands subs =
      ((buildQueue subs).commands).mergeSort (fun a b => a.sortKey ≤ b.sortKey) := by
  cases subs with
  | nil =>
      simp [sortedCommands, buildQueue, DrawCommandQueueM.sort, DrawCommandQueueM.empty]
  | cons s rest =>
      have hn : (buildQueue (s :: rest)).needsSort = true := by
        simp only [buildQueue, List.foldl_cons]
        exact submit_foldl_needsSort rest _ rfl
      simp [sortedCommands, DrawCommandQueueM.sort, hn]

/-- Every command in a queue of submissions records the submission's
mesh, material, matrix snapshot and generated sort key. -/
theorem buildQueue_mem (subs : List SubmitArgs) (c : RenderCommandM)
    (h : c ∈ (buildQueue subs).commands) :
    ∃ s ∈ subs, c = ⟨s.mesh, s.material, s.model,
      generateSortKey s.mesh s.material s.depth⟩ := by
  suffices haux : ∀ (l : List SubmitArgs) (q : DrawCommandQueueM) (c : RenderCommandM),
      c ∈ (l.foldl (fun q s => q.submit s.mesh s.material s.model s.depth) q).commands →
      c ∈ q.commands ∨ ∃ s ∈ l, c = ⟨s.mesh, s.material, s.model,
        generateSortKey s.mesh s.material s.depth⟩ by
    rcases haux subs DrawCommandQueueM.empty c h with hc | hc
    · simp [DrawCommandQueueM.empty] at hc
    · exact hc
  intro l
  induction l with
  | nil => intro q c hc; exact Or.inl hc
  | cons s rest ih =>
      intro q c hc
      rcases ih _ c hc with hc2 | hc2
      · simp only [DrawCommandQueueM.submit, List.mem_append, List.mem_singleton] at hc2
        rcases hc2 with hc3 | hc3
        · exact Or.inl hc3
        · exact Or.inr ⟨s, by simp, hc3⟩
      · rcases hc2 with ⟨s2, hs2, he⟩
        exact Or.inr ⟨s2, by simp [hs2], he⟩

/-- Claim C4: after `sort()` on any queue of submitted commands (with ids
within the key's 16-bit fields and finite depths), the commands are in
ascending 64-bit sort-key order; consequently the material bits are
nondecreasing (groups ordered by numeric material id), commands sharing a
material are contiguous, and within a material group commands sharing a
mesh are contiguous. -/
theorem drawCommandQueue_sort_spec (subs : List SubmitArgs)
    (hgood : ∀ s ∈ subs, s.Good) :
    (sortedCommands subs).Pairwise (fun a b => a.sortKey ≤ b.sortKey) ∧
    (∀ i j : Fin (sortedCommands subs).length, i < j →
      materialBits ((sortedCommands subs).get i).material ≤
        materialBits ((sortedCommands subs).get j).material) ∧
    (∀ i j k : Fin (sortedCommands subs).length, i < j → j < k →
      ((sortedCommands subs).get i).material = ((sortedCommands subs).get k).material →
      ((sortedCommands subs).get j).material = ((sortedCommands subs).get i).material) ∧
    (∀ i j k : Fin (sortedCommands subs).length, i < j → j < k →
      ((sortedCommands subs).get i).material = ((sortedCommands subs).get k).material →
      ((sortedCommands subs).get i).mesh = ((sortedCommands subs).get k).mesh →
      ((sortedCommands subs).get j).mesh = ((sortedCommands subs).get i).mesh) := by
  have hmem : ∀ c ∈ sortedCommands subs, GoodCmd c := by
    intro c hc
    have hc2 : c ∈ (buildQueue subs).commands := by
      rw [sortedCommands_eq] at hc
      exact (List.mergeSort_perm _ _).mem_iff.mp hc
    obtain ⟨s, hs, he⟩ := buildQueue_mem subs c hc2
    obtain ⟨hm, hmsh, hdw⟩ := hgood s hs
    subst he
    refine ⟨hm, hmsh, s.depth.toBits, Float32.toBits_lt_of_wf hdw, ?_⟩
    simpa using generateSortKey_eq s.mesh s.material s.depth hdw
  have hpair : (sortedCommands subs).Pairwise (fun a b => a.sortKey ≤ b.sortKey) := by
    rw [sortedCommands_eq]
    refine List.Pairwise.imp ?_
      (@List.sorted_mergeSort RenderCommandM (fun a b => decide (a.sortKey ≤ b.sortKey))
        ?_ ?_ ((buildQueue subs).commands))
    · intro a b hab
      simpa using hab
    · intro a b c hab hbc
      simp only [decide_eq_true_eq] at *
      omega
    · intro a b
      simp only [Bool.or_eq_true, decide_eq_true_eq]
      omega
  have hget := List.pairwise_iff_get.mp hpair
  have getMem : ∀ m : Fin (sortedCommands subs).length,
      (sortedCommands subs).get m ∈ sortedCommands subs :=
    fun m => List.get_mem _ m.1 m.2
  have hcomp : ∀ i j : Fin (sortedCommands subs).length, i < j →
      materialBits ((sortedCommands subs).get i).material ≤
        materialBits ((sortedCommands subs).get j).material ∧
      (materialBits ((sortedCommands subs).get i).material =
          materialBits ((sortedCommands subs).get j).material →
        meshBits ((sortedCommands subs).get i).mesh ≤
          meshBits ((sortedCommands subs).get j).mesh) := by
    intro i j hij
    obtain ⟨-, -, db1, hdb1, hk1⟩ := hmem _ (getMem i)
    obtain ⟨-, -, db2, hdb2, hk2⟩ := hmem _ (getMem j)
    have hk := hget i j hij
    rw [hk1, hk2] at hk
    have b1 := materialBits_lt ((sortedCommands subs).get i).material
    have b2 := materialBits_lt ((sortedCommands subs).get j).material
    have c1 := meshBits_lt ((sortedCommands subs).get i).mesh
    have c2 := meshBits_lt ((sortedCommands subs).get j).mesh
    constructor
    · omega
    · intro he
      omega
  refine ⟨hpair, fun i j hij => (hcomp i j hij).1, ?_, ?_⟩
  · intro i j k hij hjk hik
    have h1 := (hcomp i j hij).1
    have h2 := (hcomp j k hjk).1
    have heq : materialBits ((sortedCommands subs).get i).material =
        materialBits ((sortedCommands subs).get k).material := by rw [hik]
    have hj : materialBits ((sortedCommands subs).get j).material =
        materialBits ((sortedCommands subs).get i).material := by omega
    obtain ⟨gmi, -, -⟩ := hmem _ (getMem i)
    obtain ⟨gmj, -, -⟩ := hmem _ (getMem j)
    exact materialBits_inj gmj gmi hj
  · intro i j k hij hjk hmat hmesh
    have h1 := hcomp i j hij
    have h2 := hcomp j k hjk
    have heqm : materialBits ((sortedCommands subs).get i).material =
        materialBits ((sortedCommands subs).get k).material := by rw [hmat]
    have hb1 := h1.2 (by omega)
    have hb2 := h2.2 (by omega)
    have heqms : meshBits ((sortedCommands subs).get i).mesh =
        meshBits ((sortedCommands subs).get k).mesh := by rw [hmesh]
    have hj : meshBits ((sortedCommands subs).get j).mesh =
        meshBits ((sortedCommands subs).get i).mesh := by omega
    obtain ⟨-, gsi, -⟩ := hmem _ (getMem i)
    obtain ⟨-, gsj, -⟩ := hmem _ (getMem j)
    exact meshBits_inj gsj gsi hj

/-- Witness for C4 at the concrete queue `subs0` (materials with shader
ids 2,1,1,2 over meshes 1,2,1,2 at depths 1.0, 0.5, 1.0, 0.5). -/
theorem drawCommandQueue_sort_spec_witness :
    (∀ s ∈ subs0, s.Good) ∧
    ((sortedCommands subs0).Pairwise (fun a b => a.sortKey ≤ b.sortKey) ∧
    (∀ i j : Fin (sortedCommands subs0).length, i < j →
      materialBits ((sortedCommands subs0).get i).material ≤
        materialBits ((sortedCommands subs0).get j).material) ∧
    (∀ i j k : Fin (sortedCommands subs0).length, i < j → j < k →
      ((sortedCommands subs0).get i).material = ((sortedCommands subs0).get k).material →
      ((sortedCommands subs0).get j).material = ((sortedCommands subs0).get i).material) ∧
    (∀ i j k : Fin (sortedCommands subs0).length, i < j → j < k →
      ((sortedCommands subs0).get i).material = ((sortedCommands subs0).get k).material →
      ((sortedCommands subs0).get i).mesh = ((sortedCommands subs0).get k).mesh →
      ((sortedCommands subs0).get j).mesh = ((sortedCommands subs0).get i).mesh)) :=
  ⟨by decide, drawCommandQueue_sort_spec subs0 (by decide)⟩

/-- The magnitude of a finite float is monotone in its exponent/fraction
bits. -/
theorem Float32.val149_le_of_bits_le {f g : Float32} (hf : f.frac < 2 ^ 23)
    (hg : g.frac < 2 ^ 23) (h : f.ex * 2 ^ 23 + f.frac ≤ g.ex * 2 ^ 23 + g.frac) :
    f.val149 ≤ g.val149 := by
  have hex : f.ex ≤ g.ex := by
    by_contra hc
    push_neg at hc
    have : g.ex + 1 ≤ f.ex := hc
    have : (g.ex + 1) * 2 ^ 23 ≤ f.ex * 2 ^ 23 := Nat.mul_le_mul_right _ this
    omega
  rcases Nat.eq_or_lt_of_le hex with he | he
  · have hfr : f.frac ≤ g.frac := by
      rw [he] at h
      omega
    unfold Float32.val149
    rw [he]
    by_cases h0 : g.ex = 0
    · simp only [h0, if_true]
      exact hfr
    · simp only [h0, if_false]
      exact Nat.mul_le_mul_left _ (by omega)
  · unfold Float32.val149
    have hg0 : ¬ g.ex = 0 := by omega
    simp only [hg0, if_false]
    by_cases hf0 : f.ex = 0
    · simp only [hf0, if_true]
      calc f.frac ≤ 2 ^ 23 := le_of_lt hf
        _ ≤ 2 ^ (g.ex - 1) * 2 ^ 23 := Nat.le_mul_of_pos_left _ (by positivity)
        _ ≤ 2 ^ (g.ex - 1) * (2 ^ 23 + g.frac) := Nat.mul_le_mul_left _ (by omega)
    · simp only [hf0, if_false]
      calc 2 ^ (f.ex - 1) * (2 ^ 23 + f.frac)
          ≤ 2 ^ (f.ex - 1) * 2 ^ 24 := Nat.mul_le_mul_left _ (by omega)
        _ = 2 ^ (f.ex - 1 + 1) * 2 ^ 23 := by rw [pow_succ]; ring
        _ ≤ 2 ^ (g.ex - 1) * 2 ^ 23 :=
            Nat.mul_le_mul_right _ (Nat.pow_le_pow_right (by norm_num) (by omega))
        _ ≤ 2 ^ (g.ex - 1) * (2 ^ 23 + g.frac) := Nat.mul_le_mul_left _ (by omega)

/-- For non-negative finite floats, numeric order implies raw-bit-pattern
order. -/
theorem Float32.toBits_lt_of_toVal_lt {f g : Float32} (hf : f.WF) (hg : g.WF)
    (hsf : f.sign = false) (hsg : g.sign = false) (h : f.toVal < g.toVal) :
    f.toBits < g.toBits := by
  by_contra hle
  push_neg at hle
  have hb : g.ex * 2 ^ 23 + g.frac ≤ f.ex * 2 ^ 23 + f.frac := by
    simp only [Float32.toBits, hsf, hsg, if_false, Bool.false_eq_true] at hle
    omega
  have hv := Float32.val149_le_of_bits_le hg.2 hf.2 hb
  have hmono : g.toVal ≤ f.toVal := by
    simp only [Float32.toVal, hsf, hsg, if_false, Bool.false_eq_true, one_mul]
    gcongr
  exact absurd h (not_lt.mpr hmono)

/-- Claim C8: with equal material bits and equal mesh bits, the sort key
built from the raw 32-bit IEEE pattern of a non-negative finite depth is
strictly monotone in the numeric depth: bit-pattern ordering coincides
with numeric ordering on non-negative depths. -/
theorem generateSortKey_depth_order (mesh1 mesh2 : Option ℕ)
    (mat1 mat2 : Option MaterialM) (d1 d2 : Float32)
    (hm : meshBits mesh1 = meshBits mesh2)
    (ha : materialBits mat1 = materialBits mat2)
    (h1 : d1.WF) (h2 : d2.WF) (hs1 : d1.sign = false) (hs2 : d2.sign = false)
    (_hfin1 : d1.ex ≠ 255) (_hfin2 : d2.ex ≠ 255)
    (hlt : d1.toVal < d2.toVal) :
    generateSortKey mesh1 mat1 d1 < generateSortKey mesh2 mat2 d2 := by
  rw [generateSortKey_eq _ _ _ h1, generateSortKey_eq _ _ _ h2, hm, ha]
  have := Float32.toBits_lt_of_toVal_lt h1 h2 hs1 hs2 hlt
  omega

/-- Witness for C8 at depths 0.5 < 1.0 with shader id 1 and mesh id 1. -/
theorem generateSortKey_depth_order_witness :
    Float32.half.toVal < Float32.one.toVal ∧
    generateSortKey (some 1) (some ⟨some 1⟩) Float32.half <
      generateSortKey (some 1) (some ⟨some 1⟩) Float32.one := by
  have hv : Float32.half.toVal < Float32.one.toVal := by
    norm_num [Float32.toVal, Float32.val149, Float32.half, Float32.one]
  exact ⟨hv, generateSortKey_depth_order (some 1) (some 1) (some ⟨some 1⟩)
    (some ⟨some 1⟩) Float32.half Float32.one rfl rfl (by decide) (by decide)
    rfl rfl (by decide) (by decide) hv⟩

/-- Characterization of the `beginFrame` light-copy loop: slot `j` holds
the new data when `j < n` and the previous contents otherwise. -/
theorem lightSlots_foldRange (n : ℕ) (s : Fin 8 → LightDataM) (f : ℕ → LightDataM) :
    (List.range n).foldl (fun s i => fun j : Fin 8 => if j.val = i then f i else s j) s =
      fun j : Fin 8 => if j.val < n then f j.val else s j := by
  induction n with
  | zero => funext j; simp
  | succ n ih =>
      rw [List.range_succ, List.foldl_append, ih]
      funext j
      simp only [List.foldl_cons, List.foldl_nil]
      by_cases hj : j.val = n
      · simp [hj]
      · by_cases hj2 : j.val < n
        · have : j.val < n + 1 := by omega
          simp [hj, hj2, this]
        · have : ¬ j.val < n + 1 := by omega
          simp [hj, hj2, this]

/-- `getD` inside the taken prefix agrees with `getD` on the list. -/
theorem getD_take {α : Type} (l : List α) (k i : ℕ) (d : α) (h : i < k) :
    (l.take k).getD i d = l.getD i d := by
  simp [List.getD_eq_getElem?_getD, List.getElem?_take, h]

/-- Claim C10: `beginFrame` uploads `min(N, MAX_LIGHTS)` lights: the
UBO's `numLights` is `min(N, 8)`, slots `0 … min(N,8)-1` receive exactly
the corresponding submitted lights, the remaining slots keep their
previous contents, and the resulting UBO state is identical to the one
produced by the first 8 lights alone — lights at index 8 and beyond are
silently ignored and never influence the uploaded light data (and hence
none of the shading uniforms later read from it). -/
theorem beginFrameLights_spec (u : LightsUBOM) (lights : List LightM) :
    (beginFrameLights u lights).numLights = ((min lights.length MAX_LIGHTS : ℕ) : ℤ) ∧
    (∀ j : Fin 8, j.val < min lights.length MAX_LIGHTS →
      (beginFrameLights u lights).lights j = lightToData (lights.getD j.val LightM.default)) ∧
    (∀ j : Fin 8, ¬ j.val < min lights.length MAX_LIGHTS →
      (beginFrameLights u lights).lights j = u.lights j) ∧
    beginFrameLights u lights = beginFrameLights u (lights.take MAX_LIGHTS) := by
  refine ⟨rfl, ?_, ?_, ?_⟩
  · intro j hj
    simp only [beginFrameLights, lightSlots_foldRange, hj, if_true]
  · intro j hj
    simp only [beginFrameLights, lightSlots_foldRange, hj, if_false]
  · have hlen : min (lights.take MAX_LIGHTS).length MAX_LIGHTS =
        min lights.length MAX_LIGHTS := by
      simp only [List.length_take, MAX_LIGHTS]
      omega
    simp only [beginFrameLights, lightSlots_foldRange, hlen]
    refine congrArg (fun s => LightsUBOM.mk s _) ?_
    funext j
    by_cases hj : j.val < min lights.length MAX_LIGHTS
    · have hj8 : j.val < MAX_LIGHTS := j.isLt
      simp only [hj, if_true, getD_take lights MAX_LIGHTS j.val LightM.default hj8]
    · simp only [hj, if_false]

/-- Claim C5: resolving the buffer of a mesh already in the cache.  With
the dirty flag clear, the existing handle is returned unchanged, the
state and mesh are untouched, and the GL-call trace is empty (zero
uploads).  With the dirty flag set, both payloads are re-uploaded into
the *existing* VBO/EBO (the exact call trace, containing no `glGen*`),
the buffer keeps its VAO/VBO/EBO handles, the handle allocator does not
advance, and the mesh's dirty flag is cleared. -/
theorem meshBufferCache_hit_spec (st : RendererState) (m : MeshM) (buf : MeshBufferM)
    (hlookup : lookupBuffer st.meshBuffers m.meshID = some buf) :
    (m.isDirty = false →
      (resolveMeshBuffer st m).buffer = buf ∧
      (resolveMeshBuffer st m).state = st ∧
      (resolveMeshBuffer st m).mesh = m ∧
      (resolveMeshBuffer st m).calls = []) ∧
    (m.isDirty = true →
      (resolveMeshBuffer st m).buffer = { buf with indexCount := (meshIndexData m).length } ∧
      (resolveMeshBuffer st m).state =
        { st with meshBuffers :=
            insertBuffer st.meshBuffers m.meshID (resolveMeshBuffer st m).buffer } ∧
      (resolveMeshBuffer st m).calls =
        [.bindBuffer .ArrayBuffer buf.VBO,
         .bufferDataVertices .ArrayBuffer (meshPackedVertices m) (toGLUsage buf.usage),
         .bindBuffer .ElementArrayBuffer buf.EBO,
         .bufferDataIndices .ElementArrayBuffer (meshIndexData m) (toGLUsage buf.usage),
         .bindBuffer .ArrayBuffer 0,
         .bindBuffer .ElementArrayBuffer 0]) ∧
    ((resolveMeshBuffer st m).buffer.VAO = buf.VAO ∧
     (resolveMeshBuffer st m).buffer.VBO = buf.VBO ∧
     (resolveMeshBuffer st m).buffer.EBO = buf.EBO) ∧
    (∀ c ∈ (resolveMeshBuffer st m).calls, c.isGen = false) ∧
    (resolveMeshBuffer st m).mesh.isDirty = false ∧
    (resolveMeshBuffer st m).state.nextHandle = st.nextHandle := by
  cases hd : m.isDirty with
  | false =>
      have hr : resolveMeshBuffer st m = ⟨buf, st, m, []⟩ := by
        simp [resolveMeshBuffer, hlookup, hd]
      rw [hr]
      refine ⟨fun _ => ⟨rfl, rfl, rfl, rfl⟩, fun hc => absurd hc (by simp), ?_, ?_, hd, rfl⟩
      · exact ⟨rfl, rfl, rfl⟩
      · intro c hc
        simp at hc
  | true =>
      have hr : resolveMeshBuffer st m =
          ⟨{ buf with indexCount := (meshIndexData m).length },
           ⟨insertBuffer st.meshBuffers m.meshID
              { buf with indexCount := (meshIndexData m).length },
            st.nextHandle⟩,
           m.clearDirty,
           [.bindBuffer .ArrayBuffer buf.VBO,
            .bufferDataVertices .ArrayBuffer (meshPackedVertices m) (toGLUsage buf.usage),
            .bindBuffer .ElementArrayBuffer buf.EBO,
            .bufferDataIndices .ElementArrayBuffer (meshIndexData m) (toGLUsage buf.usage),
            .bindBuffer .ArrayBuffer 0,
            .bindBuffer .ElementArrayBuffer 0]⟩ := by
        simp [resolveMeshBuffer, hlookup, hd, updateMeshIfDirty]
      rw [hr]
      refine ⟨fun hc => absurd hc (by simp), fun _ => ⟨rfl, rfl, rfl⟩, ⟨rfl, rfl, rfl⟩, ?_,
        rfl, rfl⟩
      intro c hc
      simp only [List.mem_cons, List.not_mem_nil, or_false] at hc
      rcases hc with rfl | rfl | rfl | rfl | rfl | rfl <;> rfl

/-- Witness for C5: the dirty mesh `mesh0` hits the cache entry
`meshBufM0`; the resolve keeps the handles, issues no `glGen*`, clears
the dirty flag and leaves the handle allocator alone. -/
theorem meshBufferCache_hit_spec_witness :
    lookupBuffer rstate0.meshBuffers mesh0.meshID = some meshBufM0 ∧
    (((resolveMeshBuffer rstate0 mesh0).buffer.VAO = meshBufM0.VAO ∧
      (resolveMeshBuffer rstate0 mesh0).buffer.VBO = meshBufM0.VBO ∧
      (resolveMeshBuffer rstate0 mesh0).buffer.EBO = meshBufM0.EBO) ∧
     (∀ c ∈ (resolveMeshBuffer rstate0 mesh0).calls, c.isGen = false) ∧
     (resolveMeshBuffer rstate0 mesh0).mesh.isDirty = false ∧
     (resolveMeshBuffer rstate0 mesh0).state.nextHandle = rstate0.nextHandle) := by
  have h := meshBufferCache_hit_spec rstate0 mesh0 meshBufM0 rfl
  exact ⟨rfl, h.2.2⟩

/-- `setPixelWithDepth` never changes the framebuffer dimensions. -/
theorem setPixelWithDepth_dims (fb : FramebufferM) (x y : ℤ) (d : ℚ) (col : Vec3) :
    (fb.setPixelWithDepth x y d col).width = fb.width ∧
    (fb.setPixelWithDepth x y d col).height = fb.height := by
  unfold FramebufferM.setPixelWithDepth
  split_ifs <;> exact ⟨rfl, rfl⟩

/-- `setPixelWithDepth` touches no other pixel. -/
theorem setPixelWithDepth_other (fb : FramebufferM) (x y : ℤ) (d : ℚ) (col : Vec3)
    (a b : ℤ) (h : ¬ (a = x ∧ b = y)) :
    (fb.setPixelWithDepth x y d col).colorBuffer a b = fb.colorBuffer a b ∧
    (fb.setPixelWithDepth x y d col).depthBuffer a b = fb.depthBuffer a b := by
  unfold FramebufferM.setPixelWithDepth
  split_ifs <;> simp [h]

/-- The loop body never changes the framebuffer dimensions. -/
theorem rasterBody_dims (t : TriangleAttrs) (cp : Vec3) (ls : List LightM)
    (fb : FramebufferM) (xy : ℤ × ℤ) :
    (rasterBody t cp ls fb xy).width = fb.width ∧
    (rasterBody t cp ls fb xy).height = fb.height := by
  unfold rasterBody
  cases pixelResult t cp ls xy.1 xy.2 (fb.getDepth xy.1 xy.2) with
  | none => exact ⟨rfl, rfl⟩
  | some r => exact setPixelWithDepth_dims fb xy.1 xy.2 r.1 r.2

/-- The loop body touches no pixel other than its own. -/
theorem rasterBody_other (t : TriangleAttrs) (cp : Vec3) (ls : List LightM)
    (fb : FramebufferM) (xy : ℤ × ℤ) (a b : ℤ) (h : (a, b) ≠ xy) :
    (rasterBody t cp ls fb xy).colorBuffer a b = fb.colorBuffer a b ∧
    (rasterBody t cp ls fb xy).depthBuffer a b = fb.depthBuffer a b := by
  unfold rasterBody
  cases pixelResult t cp ls xy.1 xy.2 (fb.getDepth xy.1 xy.2) with
  | none => exact ⟨rfl, rfl⟩
  | some r =>
      refine setPixelWithDepth_other fb xy.1 xy.2 r.1 r.2 a b ?_
      rintro ⟨rfl, rfl⟩
      exact h rfl

/-- A fold of loop bodies never changes the framebuffer dimensions. -/
theorem foldl_rasterBody_dims (t : TriangleAttrs) (cp : Vec3) (ls : List LightM)
    (l : List (ℤ × ℤ)) (fb : FramebufferM) :
    (l.foldl (rasterBody t cp ls) fb).width = fb.width ∧
    (l.foldl (rasterBody t cp ls) fb).height = fb.height := by
  induction l generalizing fb with
  | nil => exact ⟨rfl, rfl⟩
  | cons xy rest ih =>
      rw [List.foldl_cons]
      obtain ⟨hw, hh⟩ := ih (rasterBody t cp ls fb xy)
      obtain ⟨hw2, hh2⟩ := rasterBody_dims t cp ls fb xy
      exact ⟨hw.trans hw2, hh.trans hh2⟩

/-- A fold of loop bodies over pixels not containing `(a, b)` leaves that
pixel's color and depth untouched. -/
theorem foldl_rasterBody_other (t : TriangleAttrs) (cp : Vec3) (ls : List LightM)
    (l : List (ℤ × ℤ)) (fb : FramebufferM) (a b : ℤ) (h : (a, b) ∉ l) :
    (l.foldl (rasterBody t cp ls) fb).colorBuffer a b = fb.colorBuffer a b ∧
    (l.foldl (rasterBody t cp ls) fb).depthBuffer a b = fb.depthBuffer a b := by
  induction l generalizing fb with
  | nil => exact ⟨rfl, rfl⟩
  | cons xy rest ih =>
      rw [List.foldl_cons]
      have hne : (a, b) ≠ xy := fun he => h (he ▸ List.mem_cons_self xy rest)
      have hrest : (a, b) ∉ rest := fun hm => h (List.mem_cons_of_mem xy hm)
      obtain ⟨hc, hd⟩ := ih (rasterBody t cp ls fb xy) hrest
      obtain ⟨hc2, hd2⟩ := rasterBody_other t cp ls fb xy a b hne
      exact ⟨hc.trans hc2, hd.trans hd2⟩

/-- Membership in the inclusive integer range. -/
theorem mem_intRange {lo hi z : ℤ} : z ∈ intRange lo hi ↔ lo ≤ z ∧ z ≤ hi := by
  unfold intRange
  rw [List.mem_map]
  constructor
  · rintro ⟨n, hn, rfl⟩
    rw [List.mem_range] at hn
    omega
  · intro ⟨h1, h2⟩
    refine ⟨(z - lo).toNat, ?_, ?_⟩
    · rw [List.mem_range]
      omega
    · omega

/-- The inclusive integer range has no duplicates. -/
theorem intRange_nodup (lo hi : ℤ) : (intRange lo hi).Nodup := by
  unfold intRange
  refine List.Nodup.map ?_ (List.nodup_range ((hi + 1 - lo).toNat))
  intro a b hab
  simp only at hab
  omega

/-- Membership in the bounding-box pixel list. -/
theorem mem_pixelList {minX maxX minY maxY x y : ℤ} :
    (x, y) ∈ pixelList minX maxX minY maxY ↔
      (minX ≤ x ∧ x ≤ maxX) ∧ (minY ≤ y ∧ y ≤ maxY) := by
  unfold pixelList
  simp only [List.mem_flatMap, List.mem_map, Prod.mk.injEq]
  constructor
  · rintro ⟨b, hb, a, ha, rfl, rfl⟩
    exact ⟨mem_intRange.mp ha, mem_intRange.mp hb⟩
  · rintro ⟨hx, hy⟩
    exact ⟨y, mem_intRange.mpr hy, x, mem_intRange.mpr hx, rfl, rfl⟩

/-- The bounding-box pixel list has no duplicates. -/
theorem pixelList_nodup (minX maxX minY maxY : ℤ) :
    (pixelList minX maxX minY maxY).Nodup := by
  unfold pixelList
  rw [List.nodup_flatMap]
  refine ⟨fun b _ => (intRange_nodup minX maxX).map (fun a a2 h => by
    simpa using congrArg Prod.fst h), ?_⟩
  have := intRange_nodup minY maxY
  refine this.imp ?_
  intro b1 b2 hne
  rw [Function.onFun, List.disjoint_left]
  rintro ⟨a, b⟩ h1 h2
  simp only [List.mem_map] at h1 h2
  obtain ⟨a1, -, he1⟩ := h1
  obtain ⟨a2, -, he2⟩ := h2
  apply hne
  have e1 := congrArg Prod.snd he1
  have e2 := congrArg Prod.snd he2
  simp at e1 e2
  omega

/-- Outside the degenerate guard, the computed barycentric coordinates
sum to 1 and reproduce the query point as an affine combination of the
triangle vertices. -/
theorem barycentric_identity (p a b c : Vec3)
    (hcov : 0 ≤ (barycentric p a b c).x) :
    (barycentric p a b c).x + (barycentric p a b c).y + (barycentric p a b c).z = 1 ∧
    (barycentric p a b c).x * a.x + (barycentric p a b c).y * b.x +
      (barycentric p a b c).z * c.x = p.x ∧
    (barycentric p a b c).x * a.y + (barycentric p a b c).y * b.y +
      (barycentric p a b c).z * c.y = p.y := by
  unfold barycentric Vec3.cross at *
  dsimp only at hcov ⊢
  by_cases hdeg : |(c.x - a.x) * (b.y - a.y) - (b.x - a.x) * (c.y - a.y)| < 1
  · rw [if_pos hdeg] at hcov
    norm_num at hcov
  · rw [if_neg hdeg] at hcov ⊢
    have huz : (c.x - a.x) * (b.y - a.y) - (b.x - a.x) * (c.y - a.y) ≠ 0 := by
      intro h0
      exact hdeg (by rw [h0]; norm_num)
    refine ⟨?_, ?_, ?_⟩ <;> field_simp <;> ring

/-- `barycentric_identity` phrased for a pixel center. -/
theorem baryAt_identity (t : TriangleAttrs) (x y : ℤ)
    (hcov : 0 ≤ (baryAt t x y).x) :
    (baryAt t x y).x + (baryAt t x y).y + (baryAt t x y).z = 1 ∧
    (baryAt t x y).x * t.v0.x + (baryAt t x y).y * t.v1.x +
      (baryAt t x y).z * t.v2.x = (x : ℚ) + 1/2 ∧
    (baryAt t x y).x * t.v0.y + (baryAt t x y).y * t.v1.y +
      (baryAt t x y).z * t.v2.y = (y : ℚ) + 1/2 := by
  have h := barycentric_identity ⟨(x : ℚ) + 1/2, (y : ℚ) + 1/2, 0⟩ t.v0 t.v1 t.v2 hcov
  exact ⟨h.1, h.2.1, h.2.2⟩

/-- A pixel whose center the triangle covers (all barycentric weights
nonnegative) lies inside the clamped bounding box the loop iterates
over. -/
theorem covered_mem_pixelList (fb : FramebufferM) (t : TriangleAttrs) (x y : ℤ)
    (hx : 0 ≤ x) (hx2 : x < fb.width) (hy : 0 ≤ y) (hy2 : y < fb.height)
    (h1 : 0 ≤ (baryAt t x y).x) (h2 : 0 ≤ (baryAt t x y).y)
    (h3 : 0 ≤ (baryAt t x y).z) :
    (x, y) ∈ pixelList (bboxMinX t) (bboxMaxX fb t) (bboxMinY t) (bboxMaxY fb t) := by
  obtain ⟨hsum, hpx, hpy⟩ := baryAt_identity t x y h1
  rw [mem_pixelList]
  have hminx : min (min t.v0.x t.v1.x) t.v2.x ≤ (x : ℚ) + 1/2 := by
    have m0 : min (min t.v0.x t.v1.x) t.v2.x ≤ t.v0.x :=
      le_trans (min_le_left _ _) (min_le_left _ _)
    have m1 : min (min t.v0.x t.v1.x) t.v2.x ≤ t.v1.x :=
      le_trans (min_le_left _ _) (min_le_right _ _)
    have m2 : min (min t.v0.x t.v1.x) t.v2.x ≤ t.v2.x := min_le_right _ _
    have hms : min (min t.v0.x t.v1.x) t.v2.x *
        ((baryAt t x y).x + (baryAt t x y).y + (baryAt t x y).z) =
        min (min t.v0.x t.v1.x) t.v2.x := by rw [hsum, mul_one]
    linarith [mul_nonneg h1 (sub_nonneg.mpr m0), mul_nonneg h2 (sub_nonneg.mpr m1),
      mul_nonneg h3 (sub_nonneg.mpr m2), hms, hpx]
  have hmaxx : (x : ℚ) + 1/2 ≤ max (max t.v0.x t.v1.x) t.v2.x := by
    have m0 : t.v0.x ≤ max (max t.v0.x t.v1.x) t.v2.x :=
      le_trans (le_max_left _ _) (le_max_left _ _)
    have m1 : t.v1.x ≤ max (max t.v0.x t.v1.x) t.v2.x :=
      le_trans (le_max_right _ _) (le_max_left _ _)
    have m2 : t.v2.x ≤ max (max t.v0.x t.v1.x) t.v2.x := le_max_right _ _
    have hms : max (max t.v0.x t.v1.x) t.v2.x *
        ((baryAt t x y).x + (baryAt t x y).y + (baryAt t x y).z) =
        max (max t.v0.x t.v1.x) t.v2.x := by rw [hsum, mul_one]
    linarith [mul_nonneg h1 (sub_nonneg.mpr m0), mul_nonneg h2 (sub_nonneg.mpr m1),
      mul_nonneg h3 (sub_nonneg.mpr m2), hms, hpx]
  have hminy : min (min t.v0.y t.v1.y) t.v2.y ≤ (y : ℚ) + 1/2 := by
    have m0 : min (min t.v0.y t.v1.y) t.v2.y ≤ t.v0.y :=
      le_trans (min_le_left _ _) (min_le_left _ _)
    have m1 : min (min t.v0.y t.v1.y) t.v2.y ≤ t.v1.y :=
      le_trans (min_le_left _ _) (min_le_right _ _)
    have m2 : min (min t.v0.y t.v1.y) t.v2.y ≤ t.v2.y := min_le_right _ _
    have hms : min (min t.v0.y t.v1.y) t.v2.y *
        ((baryAt t x y).x + (baryAt t x y).y + (baryAt t x y).z) =
        min (min t.v0.y t.v1.y) t.v2.y := by rw [hsum, mul_one]
    linarith [mul_nonneg h1 (sub_nonneg.mpr m0), mul_nonneg h2 (sub_nonneg.mpr m1),
      mul_nonneg h3 (sub_nonneg.mpr m2), hms, hpy]
  have hmaxy : (y : ℚ) + 1/2 ≤ max (max t.v0.y t.v1.y) t.v2.y := by
    have m0 : t.v0.y ≤ max (max t.v0.y t.v1.y) t.v2.y :=
      le_trans (le_max_left _ _) (le_max_left _ _)
    have m1 : t.v1.y ≤ max (max t.v0.y t.v1.y) t.v2.y :=
      le_trans (le_max_right _ _) (le_max_left _ _)
    have m2 : t.v2.y ≤ max (max t.v0.y t.v1.y) t.v2.y := le_max_right _ _
    have hms : max (max t.v0.y t.v1.y) t.v2.y *
        ((baryAt t x y).x + (baryAt t x y).y + (baryAt t x y).z) =
        max (max t.v0.y t.v1.y) t.v2.y := by rw [hsum, mul_one]
    linarith [mul_nonneg h1 (sub_nonneg.mpr m0), mul_nonneg h2 (sub_nonneg.mpr m1),
      mul_nonneg h3 (sub_nonneg.mpr m2), hms, hpy]
  have truncMin : ∀ q : ℚ, q ≤ (x : ℚ) + 1/2 → max 0 (ratTrunc q) ≤ x := by
    intro q hq
    rcases le_or_lt 0 q with hq0 | hq0
    · have : ⌊q⌋ ≤ x := by
        rw [Int.floor_le_iff]
        calc q ≤ (x : ℚ) + 1/2 := hq
          _ < (x : ℚ) + 1 := by norm_num
      simp only [ratTrunc, if_pos hq0]
      omega
    · have : (0 : ℤ) ≤ ⌊-q⌋ := Int.floor_nonneg.mpr (by linarith)
      simp only [ratTrunc, if_neg (not_le.mpr hq0)]
      omega
  have truncMaxX : ∀ q : ℚ, (x : ℚ) + 1/2 ≤ q → x ≤ ratTrunc q := by
    intro q hq
    have hq0 : (0 : ℚ) ≤ q := by
      have : (0 : ℚ) ≤ (x : ℚ) := by exact_mod_cast hx
      linarith
    have : x ≤ ⌊q⌋ := Int.le_floor.mpr (by linarith)
    simp only [ratTrunc, if_pos hq0]
    omega
  have truncMinY : ∀ q : ℚ, q ≤ (y : ℚ) + 1/2 → max 0 (ratTrunc q) ≤ y := by
    intro q hq
    rcases le_or_lt 0 q with hq0 | hq0
    · have : ⌊q⌋ ≤ y := by
        rw [Int.floor_le_iff]
        calc q ≤ (y : ℚ) + 1/2 := hq
          _ < (y : ℚ) + 1 := by norm_num
      simp only [ratTrunc, if_pos hq0]
      omega
    · have : (0 : ℤ) ≤ ⌊-q⌋ := Int.floor_nonneg.mpr (by linarith)
      simp only [ratTrunc, if_neg (not_le.mpr hq0)]
      omega
  have truncMaxY : ∀ q : ℚ, (y : ℚ) + 1/2 ≤ q → y ≤ ratTrunc q := by
    intro q hq
    have hq0 : (0 : ℚ) ≤ q := by
      have : (0 : ℚ) ≤ (y : ℚ) := by exact_mod_cast hy
      linarith
    have : y ≤ ⌊q⌋ := Int.le_floor.mpr (by linarith)
    simp only [ratTrunc, if_pos hq0]
    omega
  refine ⟨⟨truncMin _ hminx, le_min (by omega) (truncMaxX _ hmaxx)⟩,
    ⟨truncMinY _ hminy, le_min (by omega) (truncMaxY _ hmaxy)⟩⟩

/-- The loop body at its own in-bounds pixel: written exactly when the
pixel is covered and the interpolated depth passes the strict depth test,
in which case color and depth are written together. -/
theorem rasterBody_self (t : TriangleAttrs) (cp : Vec3) (ls : List LightM)
    (fb : FramebufferM) (x y : ℤ)
    (hx : 0 ≤ x) (hx2 : x < fb.width) (hy : 0 ≤ y) (hy2 : y < fb.height) :
    ((rasterBody t cp ls fb (x, y)).colorBuffer x y,
     (rasterBody t cp ls fb (x, y)).depthBuffer x y) =
      if 0 ≤ (baryAt t x y).x ∧ 0 ≤ (baryAt t x y).y ∧ 0 ≤ (baryAt t x y).z ∧
          depthAt t x y < fb.depthBuffer x y then
        (shadeAt t cp ls x y, depthAt t x y)
      else (fb.colorBuffer x y, fb.depthBuffer x y) := by
  have hdep : fb.getDepth x y = fb.depthBuffer x y := by
    unfold FramebufferM.getDepth
    rw [if_pos ⟨hx, hx2, hy, hy2⟩]
  unfold rasterBody
  dsimp only
  rw [hdep]
  unfold pixelResult
  dsimp only
  by_cases h1 : (baryAt t x y).x < 0 ∨ (baryAt t x y).y < 0 ∨ (baryAt t x y).z < 0
  · rw [if_pos h1]
    have hcond : ¬ (0 ≤ (baryAt t x y).x ∧ 0 ≤ (baryAt t x y).y ∧ 0 ≤ (baryAt t x y).z ∧
        depthAt t x y < fb.depthBuffer x y) := by
      rintro ⟨c1, c2, c3, -⟩
      rcases h1 with h | h | h <;> linarith
    rw [if_neg hcond]
  · rw [if_neg h1]
    push_neg at h1
    obtain ⟨c1, c2, c3⟩ := h1
    by_cases h2 : fb.depthBuffer x y ≤ depthAt t x y
    · rw [if_pos h2]
      have hcond : ¬ (0 ≤ (baryAt t x y).x ∧ 0 ≤ (baryAt t x y).y ∧ 0 ≤ (baryAt t x y).z ∧
          depthAt t x y < fb.depthBuffer x y) := by
        rintro ⟨-, -, -, c4⟩
        linarith
      rw [if_neg hcond]
    · rw [if_neg h2]
      rw [not_le] at h2
      rw [if_pos ⟨c1, c2, c3, h2⟩]
      unfold FramebufferM.setPixelWithDepth
      dsimp only
      rw [if_pos ⟨hx, hx2, hy, hy2⟩, if_pos h2]
      simp

/-- Per-pixel characterization of `drawFilledTriangle`: at every
in-bounds pixel, the result holds the shaded color and interpolated depth
of the triangle exactly when the pixel is covered and the depth test
passes against the incoming buffer, and the incoming color and depth
otherwise. -/
theorem drawFilledTriangle_pixel (fb : FramebufferM) (t : TriangleAttrs)
    (cp : Vec3) (ls : List LightM) (x y : ℤ)
    (hx : 0 ≤ x) (hx2 : x < fb.width) (hy : 0 ≤ y) (hy2 : y < fb.height) :
    ((drawFilledTriangle fb t cp ls).colorBuffer x y,
     (drawFilledTriangle fb t cp ls).depthBuffer x y) =
      if 0 ≤ (baryAt t x y).x ∧ 0 ≤ (baryAt t x y).y ∧ 0 ≤ (baryAt t x y).z ∧
          depthAt t x y < fb.depthBuffer x y then
        (shadeAt t cp ls x y, depthAt t x y)
      else (fb.colorBuffer x y, fb.depthBuffer x y) := by
  unfold drawFilledTriangle
  by_cases hmem : (x, y) ∈ pixelList (bboxMinX t) (bboxMaxX fb t) (bboxMinY t) (bboxMaxY fb t)
  · obtain ⟨l1, l2, hsplit⟩ := List.append_of_mem hmem
    have hnd := pixelList_nodup (bboxMinX t) (bboxMaxX fb t) (bboxMinY t) (bboxMaxY fb t)
    rw [hsplit, List.nodup_append] at hnd
    have hnotl1 : (x, y) ∉ l1 := fun hc =>
      (List.disjoint_left.mp hnd.2.2 hc) (List.mem_cons_self _ _)
    have hnotl2 : (x, y) ∉ l2 := (List.nodup_cons.mp hnd.2.1).1
    rw [hsplit, List.foldl_append, List.foldl_cons]
    obtain ⟨hc1, hd1⟩ := foldl_rasterBody_other t cp ls l1 fb x y hnotl1
    obtain ⟨hw1, hh1⟩ := foldl_rasterBody_dims t cp ls l1 fb
    obtain ⟨hc2, hd2⟩ := foldl_rasterBody_other t cp ls l2
      (rasterBody t cp ls (l1.foldl (rasterBody t cp ls) fb) (x, y)) x y hnotl2
    rw [hc2, hd2]
    have hself := rasterBody_self t cp ls (l1.foldl (rasterBody t cp ls) fb) x y
      hx (by rw [hw1]; exact hx2) hy (by rw [hh1]; exact hy2)
    rw [hd1, hc1] at hself
    exact hself
  · obtain ⟨hc, hd⟩ := foldl_rasterBody_other t cp ls _ fb x y hmem
    rw [hc, hd]
    have hcond : ¬ (0 ≤ (baryAt t x y).x ∧ 0 ≤ (baryAt t x y).y ∧ 0 ≤ (baryAt t x y).z ∧
        depthAt t x y < fb.depthBuffer x y) := by
      rintro ⟨c1, c2, c3, -⟩
      exact hmem (covered_mem_pixelList fb t x y hx hx2 hy hy2 c1 c2 c3)
    rw [if_neg hcond]

/-- First components of equal pairs are equal. -/
theorem pairFst {α β : Type} {a c : α} {b d : β} (h : (a, b) = (c, d)) : a = c :=
  congrArg Prod.fst h

/-- Second components of equal pairs are equal. -/
theorem pairSnd {α β : Type} {a c : α} {b d : β} (h : (a, b) = (c, d)) : b = d :=
  congrArg Prod.snd h

/-- `drawFilledTriangle` never changes the framebuffer dimensions. -/
theorem drawFilledTriangle_dims (fb : FramebufferM) (t : TriangleAttrs)
    (cp : Vec3) (ls : List LightM) :
    (drawFilledTriangle fb t cp ls).width = fb.width ∧
    (drawFilledTriangle fb t cp ls).height = fb.height := by
  unfold drawFilledTriangle
  exact foldl_rasterBody_dims t cp ls _ fb

/-- Claim C9: a triangle whose doubled screen-space area is below the
rasterizer's degeneracy threshold (`|u.z| < 1`, i.e. area under half a
pixel) writes no pixel and no depth value: the framebuffer is returned
entirely unchanged (and the total function raises nothing). -/
theorem drawFilledTriangle_degenerate (fb : FramebufferM) (t : TriangleAttrs)
    (cp : Vec3) (ls : List LightM)
    (harea : |(t.v2.x - t.v0.x) * (t.v1.y - t.v0.y) -
      (t.v1.x - t.v0.x) * (t.v2.y - t.v0.y)| < 1) :
    drawFilledTriangle fb t cp ls = fb := by
  have hbody : ∀ (fb2 : FramebufferM) (xy : ℤ × ℤ), rasterBody t cp ls fb2 xy = fb2 := by
    intro fb2 xy
    unfold rasterBody pixelResult baryAt barycentric Vec3.cross
    dsimp only
    rw [if_pos harea]
    rw [if_pos (by norm_num : ((-1 : ℚ) < 0 ∨ (1 : ℚ) < 0 ∨ (1 : ℚ) < 0))]
  have hfold : ∀ (l : List (ℤ × ℤ)) (fb2 : FramebufferM),
      l.foldl (rasterBody t cp ls) fb2 = fb2 := by
    intro l
    induction l with
    | nil => intro fb2; rfl
    | cons a r ih =>
        intro fb2
        rw [List.foldl_cons, hbody]
        exact ih fb2
  unfold drawFilledTriangle
  exact hfold _ fb

/-- Witness for C9: the collinear triangle `triDeg` (area exactly zero)
leaves a fresh 4×4 framebuffer untouched. -/
theorem drawFilledTriangle_degenerate_witness :
    |(triDeg.v2.x - triDeg.v0.x) * (triDeg.v1.y - triDeg.v0.y) -
      (triDeg.v1.x - triDeg.v0.x) * (triDeg.v2.y - triDeg.v0.y)| < 1 ∧
    drawFilledTriangle (mkFramebuffer 4 4) triDeg ⟨0, 0, 0⟩ [] = mkFramebuffer 4 4 := by
  have h : |(triDeg.v2.x - triDeg.v0.x) * (triDeg.v1.y - triDeg.v0.y) -
      (triDeg.v1.x - triDeg.v0.x) * (triDeg.v2.y - triDeg.v0.y)| < 1 := by
    norm_num [triDeg]
  exact ⟨h, drawFilledTriangle_degenerate (mkFramebuffer 4 4) triDeg ⟨0, 0, 0⟩ [] h⟩

/-- With no lights, the shaded color is exactly the barycentric
interpolation of the three vertex colors (`calculateLighting` returns the
base color untouched). -/
theorem shadeAt_no_lights (t : TriangleAttrs) (cp : Vec3) (x y : ℤ) :
    shadeAt t cp [] x y =
      Vec3.add (Vec3.add (Vec3.smul (baryAt t x y).x t.c0)
        (Vec3.smul (baryAt t x y).y t.c1)) (Vec3.smul (baryAt t x y).z t.c2) := rfl

/-- Claim C7: rasterizing in solid mode with an empty light list, every
written in-bounds pixel receives exactly the barycentric interpolation of
the three vertex colors — no ambient, diffuse or specular term and no
clamping — together with the interpolated depth; unwritten pixels keep
their color and depth. -/
theorem rasterizer_unlit_pixel (fb : FramebufferM) (t : TriangleAttrs)
    (cp : Vec3) (x y : ℤ)
    (hx : 0 ≤ x) (hx2 : x < fb.width) (hy : 0 ≤ y) (hy2 : y < fb.height) :
    ((drawFilledTriangle fb t cp []).colorBuffer x y,
     (drawFilledTriangle fb t cp []).depthBuffer x y) =
      if 0 ≤ (baryAt t x y).x ∧ 0 ≤ (baryAt t x y).y ∧ 0 ≤ (baryAt t x y).z ∧
          depthAt t x y < fb.depthBuffer x y then
        (Vec3.add (Vec3.add (Vec3.smul (baryAt t x y).x t.c0)
          (Vec3.smul (baryAt t x y).y t.c1)) (Vec3.smul (baryAt t x y).z t.c2),
         depthAt t x y)
      else (fb.colorBuffer x y, fb.depthBuffer x y) := by
  have h := drawFilledTriangle_pixel fb t cp [] x y hx hx2 hy hy2
  rw [shadeAt_no_lights] at h
  exact h

/-- Witness for C7: on a fresh 2×2 framebuffer, `triW` (red, green, blue
vertex colors) writes pixel `(0,0)` with exactly the interpolated color
`(1/2, 1/4, 1/4)` at depth 1/2. -/
theorem rasterizer_unlit_pixel_witness :
    ((0 : ℤ) ≤ 0 ∧ (0 : ℤ) < (mkFramebuffer 2 2).width ∧
      (0 : ℤ) < (mkFramebuffer 2 2).height) ∧
    ((drawFilledTriangle (mkFramebuffer 2 2) triW ⟨0, 0, 0⟩ []).colorBuffer 0 0,
     (drawFilledTriangle (mkFramebuffer 2 2) triW ⟨0, 0, 0⟩ []).depthBuffer 0 0) =
      (⟨1/2, 1/4, 1/4⟩, 1/2) := by
  have h := rasterizer_unlit_pixel (mkFramebuffer 2 2) triW ⟨0, 0, 0⟩ 0 0
    (by decide) (by decide) (by decide) (by decide)
  have hbc : baryAt triW 0 0 = ⟨1/2, 1/4, 1/4⟩ := by
    norm_num [baryAt, barycentric, triW, Vec3.cross]
  have hdep : depthAt triW 0 0 = 1/2 := by
    rw [depthAt]
    rw [hbc]
    norm_num [triW]
  rw [hbc, hdep] at h
  rw [if_pos (by norm_num [mkFramebuffer])] at h
  refine ⟨⟨le_refl 0, by decide, by decide⟩, ?_⟩
  rw [h]
  norm_num [triW, Vec3.add, Vec3.smul]

/-- Drawing two triangles that both cover an in-bounds pixel, where `t1`
is strictly nearer at the pixel and passes the depth test against the
incoming buffer: in either draw order the pixel ends with `t1`'s shaded
color and interpolated depth. -/
theorem draw_two_nearer (fb : FramebufferM) (t1 t2 : TriangleAttrs)
    (cp : Vec3) (ls : List LightM) (x y : ℤ)
    (hx : 0 ≤ x) (hx2 : x < fb.width) (hy : 0 ≤ y) (hy2 : y < fb.height)
    (hcov1 : 0 ≤ (baryAt t1 x y).x ∧ 0 ≤ (baryAt t1 x y).y ∧ 0 ≤ (baryAt t1 x y).z)
    (hcov2 : 0 ≤ (baryAt t2 x y).x ∧ 0 ≤ (baryAt t2 x y).y ∧ 0 ≤ (baryAt t2 x y).z)
    (hd : depthAt t1 x y < depthAt t2 x y)
    (hp : depthAt t1 x y < fb.depthBuffer x y) :
    ((drawFilledTriangle (drawFilledTriangle fb t1 cp ls) t2 cp ls).colorBuffer x y =
        shadeAt t1 cp ls x y ∧
      (drawFilledTriangle (drawFilledTriangle fb t1 cp ls) t2 cp ls).depthBuffer x y =
        depthAt t1 x y) ∧
    ((drawFilledTriangle (drawFilledTriangle fb t2 cp ls) t1 cp ls).colorBuffer x y =
        shadeAt t1 cp ls x y ∧
      (drawFilledTriangle (drawFilledTriangle fb t2 cp ls) t1 cp ls).depthBuffer x y =
        depthAt t1 x y) := by
  obtain ⟨hw1, hh1⟩ := drawFilledTriangle_dims fb t1 cp ls
  obtain ⟨hw2, hh2⟩ := drawFilledTriangle_dims fb t2 cp ls
  constructor
  · -- order: t1 then t2
    have h1 := drawFilledTriangle_pixel fb t1 cp ls x y hx hx2 hy hy2
    rw [if_pos ⟨hcov1.1, hcov1.2.1, hcov1.2.2, hp⟩] at h1
    have e1c := pairFst h1
    have e1d := pairSnd h1
    have h2 := drawFilledTriangle_pixel (drawFilledTriangle fb t1 cp ls) t2 cp ls x y
      hx (by rw [hw1]; exact hx2) hy (by rw [hh1]; exact hy2)
    rw [if_neg (by rw [e1d]; rintro ⟨-, -, -, hlt⟩; linarith)] at h2
    have e2c := pairFst h2
    have e2d := pairSnd h2
    rw [e2c, e2d, e1c, e1d]
    exact ⟨rfl, rfl⟩
  · -- order: t2 then t1
    have h2 := drawFilledTriangle_pixel fb t2 cp ls x y hx hx2 hy hy2
    by_cases hd2 : depthAt t2 x y < fb.depthBuffer x y
    · rw [if_pos ⟨hcov2.1, hcov2.2.1, hcov2.2.2, hd2⟩] at h2
      have e2c := pairFst h2
      have e2d := pairSnd h2
      have h1 := drawFilledTriangle_pixel (drawFilledTriangle fb t2 cp ls) t1 cp ls x y
        hx (by rw [hw2]; exact hx2) hy (by rw [hh2]; exact hy2)
      rw [if_pos ⟨hcov1.1, hcov1.2.1, hcov1.2.2, by rw [e2d]; exact hd⟩] at h1
      exact ⟨pairFst h1, pairSnd h1⟩
    · rw [if_neg (by rintro ⟨-, -, -, hlt⟩; exact hd2 hlt)] at h2
      have e2c := pairFst h2
      have e2d := pairSnd h2
      have h1 := drawFilledTriangle_pixel (drawFilledTriangle fb t2 cp ls) t1 cp ls x y
        hx (by rw [hw2]; exact hx2) hy (by rw [hh2]; exact hy2)
      rw [if_pos ⟨hcov1.1, hcov1.2.1, hcov1.2.2, by rw [e2d]; exact hp⟩] at h1
      exact ⟨pairFst h1, pairSnd h1⟩

/-- Claim C6 (amended): for two triangles covering the same in-bounds
pixel at distinct interpolated depths, *provided the nearer depth passes
the strict depth test against the initially stored depth* (e.g. a
freshly cleared buffer), the final color and depth at the pixel equal the
nearer triangle's shaded color and depth, regardless of draw order. -/
theorem rasterizer_depth_order_independent (fb : FramebufferM)
    (t1 t2 : TriangleAttrs) (cp : Vec3) (ls : List LightM) (x y : ℤ)
    (hx : 0 ≤ x) (hx2 : x < fb.width) (hy : 0 ≤ y) (hy2 : y < fb.height)
    (hcov1 : 0 ≤ (baryAt t1 x y).x ∧ 0 ≤ (baryAt t1 x y).y ∧ 0 ≤ (baryAt t1 x y).z)
    (hcov2 : 0 ≤ (baryAt t2 x y).x ∧ 0 ≤ (baryAt t2 x y).y ∧ 0 ≤ (baryAt t2 x y).z)
    (hne : depthAt t1 x y ≠ depthAt t2 x y)
    (hpass : min (depthAt t1 x y) (depthAt t2 x y) < fb.depthBuffer x y) :
    ((drawFilledTriangle (drawFilledTriangle fb t1 cp ls) t2 cp ls).colorBuffer x y =
        (if depthAt t1 x y < depthAt t2 x y then shadeAt t1 cp ls x y
          else shadeAt t2 cp ls x y) ∧
      (drawFilledTriangle (drawFilledTriangle fb t1 cp ls) t2 cp ls).depthBuffer x y =
        min (depthAt t1 x y) (depthAt t2 x y)) ∧
    ((drawFilledTriangle (drawFilledTriangle fb t2 cp ls) t1 cp ls).colorBuffer x y =
        (if depthAt t1 x y < depthAt t2 x y then shadeAt t1 cp ls x y
          else shadeAt t2 cp ls x y) ∧
      (drawFilledTriangle (drawFilledTriangle fb t2 cp ls) t1 cp ls).depthBuffer x y =
        min (depthAt t1 x y) (depthAt t2 x y)) := by
  rcases lt_or_gt_of_ne hne with hlt | hlt
  · have hmin : min (depthAt t1 x y) (depthAt t2 x y) = depthAt t1 x y :=
      min_eq_left (le_of_lt hlt)
    rw [hmin] at hpass ⊢
    rw [if_pos hlt]
    exact draw_two_nearer fb t1 t2 cp ls x y hx hx2 hy hy2 hcov1 hcov2 hlt hpass
  · have hmin : min (depthAt t1 x y) (depthAt t2 x y) = depthAt t2 x y :=
      min_eq_right (le_of_lt hlt)
    rw [hmin] at hpass ⊢
    rw [if_neg (by linarith)]
    have h := draw_two_nearer fb t2 t1 cp ls x y hx hx2 hy hy2 hcov2 hcov1 hlt hpass
    exact ⟨h.2, h.1⟩

/-- Counterexample to claim C6 as stated ("for any framebuffer"): into a
1×1 framebuffer already holding a depth-0 surface (red triangle `triT0`
drawn first), the overlapping triangles `triT1` (depth 1/2, shaded
white) and `triT2` (depth 3/4) are drawn in both orders.  Both orders
leave the pixel red at depth 0 — not the nearer triangle's white color
and depth 1/2 — because the stored depth already beats both. -/
theorem depth_order_claim_counterexample :
    (0 ≤ (baryAt triT1 0 0).x ∧ 0 ≤ (baryAt triT1 0 0).y ∧ 0 ≤ (baryAt triT1 0 0).z) ∧
    (0 ≤ (baryAt triT2 0 0).x ∧ 0 ≤ (baryAt triT2 0 0).y ∧ 0 ≤ (baryAt triT2 0 0).z) ∧
    depthAt triT1 0 0 = 1/2 ∧
    depthAt triT2 0 0 = 3/4 ∧
    shadeAt triT1 ⟨0, 0, 0⟩ [] 0 0 = ⟨1, 1, 1⟩ ∧
    (drawFilledTriangle (drawFilledTriangle
        (drawFilledTriangle (mkFramebuffer 1 1) triT0 ⟨0, 0, 0⟩ [])
        triT1 ⟨0, 0, 0⟩ []) triT2 ⟨0, 0, 0⟩ []).colorBuffer 0 0 = ⟨1, 0, 0⟩ ∧
    (drawFilledTriangle (drawFilledTriangle
        (drawFilledTriangle (mkFramebuffer 1 1) triT0 ⟨0, 0, 0⟩ [])
        triT2 ⟨0, 0, 0⟩ []) triT1 ⟨0, 0, 0⟩ []).colorBuffer 0 0 = ⟨1, 0, 0⟩ ∧
    (drawFilledTriangle (drawFilledTriangle
        (drawFilledTriangle (mkFramebuffer 1 1) triT0 ⟨0, 0, 0⟩ [])
        triT1 ⟨0, 0, 0⟩ []) triT2 ⟨0, 0, 0⟩ []).depthBuffer 0 0 = 0 ∧
    (drawFilledTriangle (drawFilledTriangle
        (drawFilledTriangle (mkFramebuffer 1 1) triT0 ⟨0, 0, 0⟩ [])
        triT2 ⟨0, 0, 0⟩ []) triT1 ⟨0, 0, 0⟩ []).depthBuffer 0 0 = 0 := by
  have hbc0 : baryAt triT0 0 0 = ⟨1/2, 1/4, 1/4⟩ := by
    norm_num [baryAt, barycentric, triT0, triZ, Vec3.cross]
  have hbc1 : baryAt triT1 0 0 = ⟨1/2, 1/4, 1/4⟩ := by
    norm_num [baryAt, barycentric, triT1, triZ, Vec3.cross]
  have hbc2 : baryAt triT2 0 0 = ⟨1/2, 1/4, 1/4⟩ := by
    norm_num [baryAt, barycentric, triT2, triZ, Vec3.cross]
  have hd0 : depthAt triT0 0 0 = 0 := by
    rw [depthAt, hbc0]; norm_num [triT0, triZ]
  have hd1 : depthAt triT1 0 0 = 1/2 := by
    rw [depthAt, hbc1]; norm_num [triT1, triZ]
  have hd2 : depthAt triT2 0 0 = 3/4 := by
    rw [depthAt, hbc2]; norm_num [triT2, triZ]
  have hs0 : shadeAt triT0 ⟨0, 0, 0⟩ [] 0 0 = ⟨1, 0, 0⟩ := by
    rw [shadeAt_no_lights, hbc0]; norm_num [triT0, triZ, Vec3.add, Vec3.smul]
  have hs1 : shadeAt triT1 ⟨0, 0, 0⟩ [] 0 0 = ⟨1, 1, 1⟩ := by
    rw [shadeAt_no_lights, hbc1]; norm_num [triT1, triZ, Vec3.add, Vec3.smul]
  -- drawing the occluder triT0 onto the fresh 1×1 buffer
  have h0 := drawFilledTriangle_pixel (mkFramebuffer 1 1) triT0 ⟨0, 0, 0⟩ [] 0 0
    (by decide) (by decide) (by decide) (by decide)
  rw [if_pos ⟨by rw [hbc0]; norm_num, by rw [hbc0]; norm_num, by rw [hbc0]; norm_num,
    by rw [hd0]; norm_num [mkFramebuffer]⟩] at h0
  have eAc := pairFst h0
  have eAd := pairSnd h0
  rw [hs0] at eAc
  rw [hd0] at eAd
  obtain ⟨hwA, hhA⟩ := drawFilledTriangle_dims (mkFramebuffer 1 1) triT0 ⟨0, 0, 0⟩ []
  -- order A: triT1 then triT2
  have h1 := drawFilledTriangle_pixel
    (drawFilledTriangle (mkFramebuffer 1 1) triT0 ⟨0, 0, 0⟩ []) triT1 ⟨0, 0, 0⟩ [] 0 0
    (by decide) (by rw [hwA]; decide) (by decide) (by rw [hhA]; decide)
  rw [if_neg (by rintro ⟨-, -, -, hlt⟩; rw [hd1, eAd] at hlt; linarith)] at h1
  have eB1c := pairFst h1
  have eB1d := pairSnd h1
  obtain ⟨hwB1, hhB1⟩ := drawFilledTriangle_dims
    (drawFilledTriangle (mkFramebuffer 1 1) triT0 ⟨0, 0, 0⟩ []) triT1 ⟨0, 0, 0⟩ []
  have h12 := drawFilledTriangle_pixel
    (drawFilledTriangle (drawFilledTriangle (mkFramebuffer 1 1) triT0 ⟨0, 0, 0⟩ [])
      triT1 ⟨0, 0, 0⟩ []) triT2 ⟨0, 0, 0⟩ [] 0 0
    (by decide) (by rw [hwB1, hwA]; decide) (by decide) (by rw [hhB1, hhA]; decide)
  rw [if_neg (by rintro ⟨-, -, -, hlt⟩; rw [hd2, eB1d, eAd] at hlt; linarith)] at h12
  have eC1c := pairFst h12
  have eC1d := pairSnd h12
  -- order B: triT2 then triT1
  have h2 := drawFilledTriangle_pixel
    (drawFilledTriangle (mkFramebuffer 1 1) triT0 ⟨0, 0, 0⟩ []) triT2 ⟨0, 0, 0⟩ [] 0 0
    (by decide) (by rw [hwA]; decide) (by decide) (by rw [hhA]; decide)
  rw [if_neg (by rintro ⟨-, -, -, hlt⟩; rw [hd2, eAd] at hlt; linarith)] at h2
  have eB2c := pairFst h2
  have eB2d := pairSnd h2
  obtain ⟨hwB2, hhB2⟩ := drawFilledTriangle_dims
    (drawFilledTriangle (mkFramebuffer 1 1) triT0 ⟨0, 0, 0⟩ []) triT2 ⟨0, 0, 0⟩ []
  have h21 := drawFilledTriangle_pixel
    (drawFilledTriangle (drawFilledTriangle (mkFramebuffer 1 1) triT0 ⟨0, 0, 0⟩ [])
      triT2 ⟨0, 0, 0⟩ []) triT1 ⟨0, 0, 0⟩ [] 0 0
    (by decide) (by rw [hwB2, hwA]; decide) (by decide) (by rw [hhB2, hhA]; decide)
  rw [if_neg (by rintro ⟨-, -, -, hlt⟩; rw [hd1, eB2d, eAd] at hlt; linarith)] at h21
  have eC2c := pairFst h21
  have eC2d := pairSnd h21
  refine ⟨⟨by rw [hbc1]; norm_num, by rw [hbc1]; norm_num, by rw [hbc1]; norm_num⟩,
    ⟨by rw [hbc2]; norm_num, by rw [hbc2]; norm_num, by rw [hbc2]; norm_num⟩,
    hd1, hd2, hs1, ?_, ?_, ?_, ?_⟩
  · rw [eC1c, eB1c, eAc]
  · rw [eC2c, eB2c, eAc]
  · rw [eC1d, eB1d, eAd]
  · rw [eC2d, eB2d, eAd]

/-- Witness for the amended C6 at a fresh 1×1 framebuffer with the
triangles `triT1` (depth 1/2) and `triT2` (depth 3/4). -/
theorem rasterizer_depth_order_independent_witness :
    depthAt triT1 0 0 ≠ depthAt triT2 0 0 ∧
    min (depthAt triT1 0 0) (depthAt triT2 0 0) < (mkFramebuffer 1 1).depthBuffer 0 0 ∧
    (((drawFilledTriangle (drawFilledTriangle (mkFramebuffer 1 1) triT1 ⟨0, 0, 0⟩ [])
        triT2 ⟨0, 0, 0⟩ []).colorBuffer 0 0 =
        (if depthAt triT1 0 0 < depthAt triT2 0 0 then shadeAt triT1 ⟨0, 0, 0⟩ [] 0 0
          else shadeAt triT2 ⟨0, 0, 0⟩ [] 0 0) ∧
      (drawFilledTriangle (drawFilledTriangle (mkFramebuffer 1 1) triT1 ⟨0, 0, 0⟩ [])
        triT2 ⟨0, 0, 0⟩ []).depthBuffer 0 0 =
        min (depthAt triT1 0 0) (depthAt triT2 0 0)) ∧
    ((drawFilledTriangle (drawFilledTriangle (mkFramebuffer 1 1) triT2 ⟨0, 0, 0⟩ [])
        triT1 ⟨0, 0, 0⟩ []).colorBuffer 0 0 =
        (if depthAt triT1 0 0 < depthAt triT2 0 0 then shadeAt triT1 ⟨0, 0, 0⟩ [] 0 0
          else shadeAt triT2 ⟨0, 0, 0⟩ [] 0 0) ∧
      (drawFilledTriangle (drawFilledTriangle (mkFramebuffer 1 1) triT2 ⟨0, 0, 0⟩ [])
        triT1 ⟨0, 0, 0⟩ []).depthBuffer 0 0 =
        min (depthAt triT1 0 0) (depthAt triT2 0 0))) := by
  have hbc1 : baryAt triT1 0 0 = ⟨1/2, 1/4, 1/4⟩ := by
    norm_num [baryAt, barycentric, triT1, triZ, Vec3.cross]
  have hbc2 : baryAt triT2 0 0 = ⟨1/2, 1/4, 1/4⟩ := by
    norm_num [baryAt, barycentric, triT2, triZ, Vec3.cross]
  have hd1 : depthAt triT1 0 0 = 1/2 := by
    rw [depthAt, hbc1]; norm_num [triT1, triZ]
  have hd2 : depthAt triT2 0 0 = 3/4 := by
    rw [depthAt, hbc2]; norm_num [triT2, triZ]
  have hne : depthAt triT1 0 0 ≠ depthAt triT2 0 0 := by
    rw [hd1, hd2]; norm_num
  have hpass : min (depthAt triT1 0 0) (depthAt triT2 0 0) <
      (mkFramebuffer 1 1).depthBuffer 0 0 := by
    rw [hd1, hd2]; norm_num [mkFramebuffer]
  exact ⟨hne, hpass,
    rasterizer_depth_order_independent (mkFramebuffer 1 1) triT1 triT2 ⟨0, 0, 0⟩ [] 0 0
      (by decide) (by decide) (by decide) (by decide)
      ⟨by rw [hbc1]; norm_num, by rw [hbc1]; norm_num, by rw [hbc1]; norm_num⟩
      ⟨by rw [hbc2]; norm_num, by rw [hbc2]; norm_num, by rw [hbc2]; norm_num⟩
      hne hpass⟩

end GE
